import Mathlib

/-!
Verification of the Auto-Coder repository's core subsystems against its
natural-language specification.  The Python sources are shallowly embedded:
Python strings become `List Char`, Python functions become executable Lean
definitions mirroring the source line by line, and fallible operations
return `Option`.  Sections follow the source files:
  * Python string primitives (`str.count`, `str.find`, slicing, ...)
  * `code_crafter/tools/edit_strategies.py` (the strategy cascade)
  * `code_crafter/tools/filesystem.py` (`edit_file` deletion sugar)
  * `code_crafter/state/conversation.py` (ConversationManager)
  * `code_crafter/tools/registry.py` (tool/argument normalization, dispatch)
  * `code_crafter/tools/safety.py` + `shell.py` (dangerous-command gate)
  * `auto_coder/agent.py` (the agentic loop)
-/

/-- Python string, embedded as a list of characters. -/
abbrev Str := List Char

/-- Whitespace characters recognized by Python's `str.isspace` / `\s`
(ASCII subset; the sources only process ASCII control text). -/
def isWs (c : Char) : Bool :=
  c = ' ' || c = '\t' || c = '\n' || c = '\r' || c = '\x0b' || c = '\x0c'

/-- Python `s.isspace()`: true iff `s` is nonempty and all-whitespace. -/
def pyIsSpace (s : Str) : Bool :=
  !s.isEmpty && s.all isWs

/-- Python slice `s[a:b]` for `0 ≤ a ≤ b` (clamping semantics of take/drop). -/
def pySlice (s : Str) (a b : Nat) : Str :=
  (s.take b).drop a

/-- Python `s.count(sub)` for nonempty `sub`: non-overlapping occurrences,
scanning left to right.  The `fuel` argument (instantiated with `s.length`,
an upper bound on the number of scan steps) makes the recursion
structural. -/
def pyCountAux (t : Str) : Nat → Str → Nat
  | 0, _ => 0
  | fuel + 1, s =>
      match s with
      | [] => 0
      | c :: rest =>
          if t.isPrefixOf (c :: rest) then
            1 + pyCountAux t fuel (List.drop (t.length - 1) rest)
          else
            pyCountAux t fuel rest

/-- Python `s.count(sub)` (empty `sub` counts `len+1` positions). -/
def pyCount (s t : Str) : Nat :=
  if t.isEmpty then s.length + 1 else pyCountAux t s.length s

/-- Python `s.find(sub)`, as `Option Nat` (`none` for `-1`). -/
def pyFind (s t : Str) : Option Nat :=
  match s with
  | [] => if t.isEmpty then some 0 else none
  | c :: rest =>
      if t.isPrefixOf (c :: rest) then some 0
      else (pyFind rest t).map (· + 1)

/-- Python `s.replace(old, new, 1)`. -/
def pyReplace1 (s t r : Str) : Str :=
  if t.isEmpty then r ++ s
  else
    match pyFind s t with
    | none => s
    | some i => s.take i ++ r ++ s.drop (i + t.length)

/-- Python `s.replace(old, new)` (all non-overlapping occurrences, left to
right) for nonempty `old`; fuel as in `pyCountAux`. -/
def pyReplaceAllAux (t r : Str) : Nat → Str → Str
  | 0, s => s
  | fuel + 1, s =>
      match s with
      | [] => []
      | c :: rest =>
          if t.isPrefixOf (c :: rest) then
            r ++ pyReplaceAllAux t r fuel (List.drop (t.length - 1) rest)
          else
            c :: pyReplaceAllAux t r fuel rest

/-- Python `s.replace(old, new)`; the sources never call it with empty `old`,
which Python treats as inserting `new` at every gap (modelled here too). -/
def pyReplaceAll (s t r : Str) : Str :=
  if t.isEmpty then r ++ (s.map (fun c => [c] ++ r)).flatten
  else pyReplaceAllAux t r s.length s

/-- Python `s.split("\n")`. -/
def splitNl : Str → List Str
  | [] => [[]]
  | c :: rest =>
      if c = '\n' then [] :: splitNl rest
      else
        match splitNl rest with
        | l :: ls => (c :: l) :: ls
        | [] => [[c]]

/-- Python `"\n".join(lines)`. -/
def joinNl (ls : List Str) : Str :=
  match ls with
  | [] => []
  | [l] => l
  | l :: rest => l ++ '\n' :: joinNl rest

/-- Python `line.rstrip()`: drop trailing whitespace. -/
def rstripWs (s : Str) : Str :=
  (s.reverse.dropWhile isWs).reverse

/-- Python `line.lstrip()`: drop leading whitespace. -/
def lstripWs (s : Str) : Str :=
  s.dropWhile isWs

/-- Python `line.strip()`. -/
def stripWs (s : Str) : Str :=
  rstripWs (lstripWs s)

/-- Python `s.rstrip("\n")`: drop trailing newline characters only. -/
def rstripNl (s : Str) : Str :=
  (s.reverse.dropWhile (· = '\n')).reverse

/-- Python `s.strip("_")`: drop leading and trailing underscores. -/
def stripUnderscores (s : Str) : Str :=
  ((s.dropWhile (· = '_')).reverse.dropWhile (· = '_')).reverse

/-- Python `s.split()` (split on whitespace runs, dropping empties); fuel
as in `pyCountAux`. -/
def pySplitWsAux : Nat → Str → List Str
  | 0, _ => []
  | fuel + 1, s =>
      match s with
      | [] => []
      | c :: rest =>
          if isWs c then pySplitWsAux fuel rest
          else
            ((c :: rest).takeWhile (fun x => !isWs x)) ::
              pySplitWsAux fuel ((c :: rest).dropWhile (fun x => !isWs x))

/-- Python `s.split()`. -/
def pySplitWs (s : Str) : List Str :=
  pySplitWsAux s.length s

/-- Index of the last newline in `s`, as `Option Nat`. -/
def lastNlPos : Str → Option Nat
  | [] => none
  | c :: rest =>
      match lastNlPos rest with
      | some j => some (j + 1)
      | none => if c = '\n' then some 0 else none

/-- Index of the first newline in `s`, as `Option Nat`. -/
def firstNlPos : Str → Option Nat
  | [] => none
  | c :: rest => if c = '\n' then some 0 else (firstNlPos rest).map (· + 1)

/-- Python `str.rfind("\n", 0, endIdx)`: last index `i < endIdx` holding a
newline, as `Option Nat`. -/
def pyRFindNlBefore (s : Str) (endIdx : Nat) : Option Nat :=
  lastNlPos (s.take endIdx)

/-- Python `str.find("\n", start)`: first index `i ≥ start` holding a newline,
as `Option Nat`. -/
def pyFindNlFrom (s : Str) (start : Nat) : Option Nat :=
  (firstNlPos (s.drop start)).map (start + ·)

/-! ## Edit strategies (`code_crafter/tools/edit_strategies.py`) -/

/-- Result of a match attempt (`MatchResult` dataclass; Python's `-1`
sentinel positions are kept as `Int`). -/
structure MatchResult where
  success : Bool
  start_pos : Int := -1
  end_pos : Int := -1
  matched_text : Str := []
  strategy_name : Str := []
deriving Repr, DecidableEq

/-- Embeds `ExactMatchStrategy.find_match`. -/
def exactFindMatch (content search : Str) : MatchResult :=
  if pyCount content search = 1 then
    let pos := ((pyFind content search).getD 0 : Nat)
    { success := true, start_pos := pos, end_pos := (pos : Int) + search.length,
      matched_text := search, strategy_name := ("exact").toList }
  else
    { success := false, strategy_name := ("exact").toList }

/-- Embeds the `trim_lines` helper of `LineTrimmedStrategy.find_match`. -/
def trimLines (text : Str) : Str :=
  joinNl ((splitNl text).map rstripWs)

/-- Python `sum(len(line) + 1 for line in lines)`. -/
def sumLens (ls : List Str) : Nat :=
  (ls.map (fun l => l.length + 1)).sum

/-- Embeds `LineTrimmedStrategy.find_match`. -/
def lineTrimmedFindMatch (content search : Str) : MatchResult :=
  let name := ("line_trimmed").toList
  let trimmedContent := trimLines content
  let trimmedSearch := trimLines search
  if pyCount trimmedContent trimmedSearch = 1 then
    let trimmedPos := ((pyFind trimmedContent trimmedSearch).getD 0 : Nat)
    let linesBefore := pyCount (trimmedContent.take trimmedPos) ['\n']
    let originalLines := splitNl content
    let originalPos0 : Nat :=
      if linesBefore = 0 then 0 else sumLens (originalLines.take linesBefore)
    let trimmedLinesBefore := splitNl (trimmedContent.take trimmedPos)
    let offsetInLine := ((trimmedLinesBefore.getLast?).map List.length).getD 0
    let originalPos := originalPos0 + offsetInLine
    let searchLineCount := pyCount trimmedSearch ['\n']
    let endLine := linesBefore + searchLineCount
    let matchedLines := (originalLines.drop linesBefore).take (endLine + 1 - linesBefore)
    let matchedText := joinNl matchedLines
    { success := true, start_pos := originalPos,
      end_pos := (originalPos : Int) + matchedText.length,
      matched_text := matchedText, strategy_name := name }
  else
    { success := false, strategy_name := name }

/-- Embeds the anchor-scanning loop of `BlockAnchorStrategy.find_match`:
the first `end_line` in `[startLine+1, min(startLine+expected+5, len))`
whose stripped line equals the last anchor and whose span is within two
lines of the expected span. -/
def blockAnchorScan (contentLines : List Str) (lastAnchor : Str)
    (startLine expectedLines : Nat) : Option Nat :=
  (List.range' (startLine + 1)
      (min (startLine + expectedLines + 5) contentLines.length - (startLine + 1))).find?
    (fun endLine =>
      decide (stripWs (contentLines.getD endLine []) = lastAnchor) &&
      decide ((((endLine : Int) - startLine + 1) - expectedLines).natAbs ≤ 2))

/-- Embeds `BlockAnchorStrategy.find_match`. -/
def blockAnchorFindMatch (content search : Str) : MatchResult :=
  let name := ("block_anchor").toList
  let searchLines := splitNl search
  if searchLines.length < 2 then { success := false, strategy_name := name }
  else
    let contentLines := splitNl content
    let firstAnchor := ((searchLines.find? (fun l => !(stripWs l).isEmpty)).map stripWs).getD []
    let lastAnchor :=
      ((searchLines.reverse.find? (fun l => !(stripWs l).isEmpty)).map stripWs).getD []
    if firstAnchor.isEmpty || lastAnchor.isEmpty then
      { success := false, strategy_name := name }
    else
      let firstMatches :=
        (List.range contentLines.length).filter
          (fun i => stripWs (contentLines.getD i []) = firstAnchor)
      if firstMatches.length = 1 then
        let startLine := firstMatches.headD 0
        let expectedLines := searchLines.length
        match blockAnchorScan contentLines lastAnchor startLine expectedLines with
        | some endLine =>
            let startPos := sumLens (contentLines.take startLine)
            let endPos := sumLens (contentLines.take (endLine + 1))
            let matchedText :=
              joinNl ((contentLines.drop startLine).take (endLine + 1 - startLine))
            { success := true, start_pos := startPos, end_pos := endPos,
              matched_text := matchedText, strategy_name := name }
        | none => { success := false, strategy_name := name }
      else
        { success := false, strategy_name := name }

/-- Embeds the `strip_common_indent` helper of
`IndentationFlexibleStrategy.find_match` (returns the normalized text). -/
def stripCommonIndent (text : Str) : Str :=
  let lines := splitNl text
  let nonEmptyLines := lines.filter (fun l => !(stripWs l).isEmpty)
  if nonEmptyLines.isEmpty then text
  else
    let minIndent :=
      (nonEmptyLines.map (fun l => l.length - (lstripWs l).length)).foldr min
        (text.length + 1)
    let strippedLines :=
      lines.map (fun l => if !(stripWs l).isEmpty then l.drop minIndent else [])
    joinNl strippedLines

/-- Checks whether the window of `contentLines` starting at `j` matches
`searchLines` line-for-line after stripping (the inner zip-compare loop of
`IndentationFlexibleStrategy`). -/
def indentWindowMatches (contentLines searchLines : List Str) (j : Nat) : Bool :=
  let windowLines := (contentLines.drop j).take searchLines.length
  windowLines.length = searchLines.length &&
    (searchLines.zip windowLines).all (fun p => stripWs p.1 = stripWs p.2)

/-- Embeds the candidate scan of `IndentationFlexibleStrategy.find_match`:
the first index `i` whose stripped line equals the first search line, whose
window matches, and for which no other index also gives a full match. -/
def indentFlexibleScan (contentLines searchLines : List Str)
    (searchFirstLine : Str) : Option Nat :=
  (List.range contentLines.length).find?
    (fun i =>
      decide (stripWs (contentLines.getD i []) = searchFirstLine) &&
      indentWindowMatches contentLines searchLines i &&
      decide (((List.range contentLines.length).filter
          (fun j => decide (j ≠ i) &&
            decide (stripWs (contentLines.getD j []) = searchFirstLine) &&
            indentWindowMatches contentLines searchLines j)).length = 0))

/-- Embeds `IndentationFlexibleStrategy.find_match`. -/
def indentationFlexibleFindMatch (content search : Str) : MatchResult :=
  let name := ("indentation_flexible").toList
  let searchNormalized := stripCommonIndent search
  let contentLines := splitNl content
  let searchFirstLine := stripWs ((splitNl searchNormalized).headD [])
  if searchFirstLine.isEmpty then { success := false, strategy_name := name }
  else
    let searchLines := splitNl searchNormalized
    match indentFlexibleScan contentLines searchLines searchFirstLine with
    | some i =>
        let matchLines := (contentLines.drop i).take searchLines.length
        let startPos := sumLens (contentLines.take i)
        let matchedText := joinNl matchLines
        { success := true, start_pos := startPos,
          end_pos := (startPos : Int) + matchedText.length,
          matched_text := matchedText, strategy_name := name }
    | none => { success := false, strategy_name := name }

/-- Embeds the `normalize_escapes` helper of `EscapeNormalizedStrategy`:
the six sequential `str.replace` calls in source order. -/
def normalizeEscapes (text : Str) : Str :=
  let r1 := pyReplaceAll text ['\\', 'n'] ['\n']
  let r2 := pyReplaceAll r1 ['\\', 't'] ['\t']
  let r3 := pyReplaceAll r2 ['\\', 'r'] ['\r']
  let r4 := pyReplaceAll r3 ['\\', '"'] ['"']
  let r5 := pyReplaceAll r4 ['\\', '\''] ['\'']
  pyReplaceAll r5 ['\\', '\\'] ['\\']

/-- Embeds `EscapeNormalizedStrategy.find_match`. -/
def escapeNormalizedFindMatch (content search : Str) : MatchResult :=
  let name := ("escape_normalized").toList
  let normalizedSearch := normalizeEscapes search
  if normalizedSearch = search then { success := false, strategy_name := name }
  else if pyCount content normalizedSearch = 1 then
    let pos := ((pyFind content normalizedSearch).getD 0 : Nat)
    { success := true, start_pos := pos,
      end_pos := (pos : Int) + normalizedSearch.length,
      matched_text := normalizedSearch, strategy_name := name }
  else
    { success := false, strategy_name := name }

/-- Python's whitespace-collapsing `normalize` helper of
`WhitespaceNormalizedStrategy` (`" ".join(text.split())`). -/
def wsNormalize (text : Str) : Str :=
  (List.intersperse [' '] (pySplitWs text)).flatten

/-- Embeds the word-walking loop of `WhitespaceNormalizedStrategy`: the index
of the first character of word number `wordsBefore + 1` (1-based), or `0`
if the walk never breaks. -/
def wsWalkOriginalPos (content : Str) (wordsBefore : Nat) : Nat :=
  let step :=
    fun (st : Nat × Bool × Option Nat) (p : Nat × Char) =>
      match st with
      | (wordCount, inWs, found) =>
        if found.isSome then st
        else
          let c := p.2
          if isWs c then (wordCount, true, none)
          else
            let wordCount' := if inWs then wordCount + 1 else wordCount
            if wordCount' > wordsBefore then (wordCount', false, some p.1)
            else (wordCount', false, none)
  ((content.enum.foldl step (0, true, none)).2.2).getD 0

/-- Embeds `WhitespaceNormalizedStrategy.find_match`. -/
def whitespaceNormalizedFindMatch (content search : Str) : MatchResult :=
  let name := ("whitespace_normalized").toList
  let normContent := wsNormalize content
  let normSearch := wsNormalize search
  if normSearch.isEmpty then { success := false, strategy_name := name }
  else if pyCount normContent normSearch = 1 then
    let normPos := ((pyFind normContent normSearch).getD 0 : Nat)
    let wordsBefore := pyCount (normContent.take normPos) [' ']
    { success := true, start_pos := wsWalkOriginalPos content wordsBefore,
      end_pos := -1, matched_text := [], strategy_name := name }
  else
    { success := false, strategy_name := name }

/-- Embeds `find_best_match` over `DEFAULT_STRATEGIES` in source order. -/
def find_best_match (content search : Str) : MatchResult :=
  let r1 := exactFindMatch content search
  if r1.success then r1 else
  let r2 := lineTrimmedFindMatch content search
  if r2.success then r2 else
  let r3 := blockAnchorFindMatch content search
  if r3.success then r3 else
  let r4 := indentationFlexibleFindMatch content search
  if r4.success then r4 else
  let r5 := escapeNormalizedFindMatch content search
  if r5.success then r5 else
  let r6 := whitespaceNormalizedFindMatch content search
  if r6.success then r6 else
  { success := false, strategy_name := ("none").toList }

/-- Embeds `apply_edit` (returns `(success, new_content, strategy_used)`). -/
def apply_edit (content old_string new_string : Str) : Bool × Str × Str :=
  let count := pyCount content old_string
  if count = 1 then
    (true, pyReplace1 content old_string new_string, ("exact").toList)
  else if count > 1 then
    (false, content, ("exact_multiple_").toList ++ (toString count).toList)
  else
    let result := find_best_match content old_string
    if !result.success then (false, content, ("no_match").toList)
    else if !result.matched_text.isEmpty && result.start_pos ≥ 0 then
      (true,
        content.take result.start_pos.toNat ++ new_string ++
          content.drop (result.start_pos.toNat + result.matched_text.length),
        result.strategy_name)
    else if result.start_pos ≥ 0 && result.end_pos ≥ 0 then
      (true,
        content.take result.start_pos.toNat ++ new_string ++
          content.drop result.end_pos.toNat,
        result.strategy_name)
    else
      (false, content, result.strategy_name ++ ("_imprecise").toList)

/-! ## The `edit_file` content pipeline (`code_crafter/tools/filesystem.py`)

Only the pure content transformation is embedded: path validation and disk
I/O around it are environment interactions.  `edit_file` reads `content`,
runs `apply_edit`, applies the deletion sugar for exact-strategy deletions,
and writes the result; `none` models the failure return (nothing written). -/

/-- Embeds the deletion-sugar block of `edit_file`: given that `apply_edit`
succeeded with the given strategy, rewrites `new_content` when the empty
replacement deletes a full line. -/
def editDeletionSugar (content old_string new_string new_content strategy_used : Str) : Str :=
  if new_string.isEmpty && strategy_used = ("exact").toList then
    match pyFind content old_string with
    | none => new_content
    | some pos =>
        let line_start := ((pyRFindNlBefore content pos).map (· + 1)).getD 0
        let before_match := pySlice content line_start pos
        if before_match.isEmpty || pyIsSpace before_match then
          let line_end :=
            match pyFindNlFrom content (pos + old_string.length) with
            | none => content.length
            | some j => j + 1
          let after_match := rstripNl (pySlice content (pos + old_string.length) line_end)
          if after_match.isEmpty || pyIsSpace after_match then
            content.take line_start ++ content.drop line_end
          else new_content
        else new_content
  else new_content

/-- Embeds `edit_file`'s content transformation: `some (finalContent,
strategy)` on success, `none` on failure. -/
def edit_file_content (content old_string new_string : Str) : Option (Str × Str) :=
  match apply_edit content old_string new_string with
  | (false, _, _) => none
  | (true, new_content, strategy_used) =>
      some (editDeletionSugar content old_string new_string new_content strategy_used,
        strategy_used)

/-! ## Data model (`providers/base.py` dataclasses)

The dataclasses live in `auto_coder/providers/base.py`; `code_crafter`
imports the same shapes from its own (absent) `providers.base`, which the
spec's §3 data model describes identically. -/

/-- Arbitrary JSON-like Python value (tool-call arguments are
`dict[str, Any]`; the core only carries them around). -/
inductive JsonVal where
  | null : JsonVal
  | boolean : Bool → JsonVal
  | num : Int → JsonVal
  | strv : Str → JsonVal
  | arr : List JsonVal → JsonVal
  | obj : List (Str × JsonVal) → JsonVal

/-- Embeds the `ToolCall` dataclass. -/
structure ToolCall where
  id : Str
  name : Str
  arguments : List (Str × JsonVal)

/-- Embeds the `ToolResult` dataclass. -/
structure ToolResult where
  tool_call_id : Str
  name : Str
  content : Str
  is_error : Bool
deriving DecidableEq

/-- Embeds the `Message` dataclass. -/
structure Message where
  role : Str
  content : Option Str := none
  tool_calls : Option (List ToolCall) := none
  tool_call_id : Option Str := none
  name : Option Str := none

/-! ## Conversation store (`code_crafter/state/conversation.py`) -/

/-- Left brace character (kept out of string literals). -/
def lbrace : Char := Char.ofNat 123

/-- Right brace character. -/
def rbrace : Char := Char.ofNat 125

/-- Embeds Python `template.format(cwd=wd)` restricted to the forms the
repository's prompts use: plain text, doubled braces, and simple
replacement fields.  A field other than `cwd` raises `KeyError` in Python,
an unmatched brace raises `ValueError`; both are `none` here.  (Conversion
or format-spec suffixes like a colon inside a field never occur in the
repository's prompts and are likewise mapped to `none`.) -/
def pyFormatCwd : Nat → Str → Str → Option Str
  | 0, _, _ => none
  | _ + 1, [], _ => some []
  | fuel + 1, c :: rest, cwd =>
      if c = lbrace then
        match rest with
        | [] => none
        | d :: rest2 =>
            if d = lbrace then (pyFormatCwd fuel rest2 cwd).map (lbrace :: ·)
            else
              let fld := rest.takeWhile (· ≠ rbrace)
              match rest.dropWhile (· ≠ rbrace) with
              | _ :: rest2 =>
                  if fld = ("cwd").toList then (pyFormatCwd fuel rest2 cwd).map (cwd ++ ·)
                  else none
              | [] => none
      else if c = rbrace then
        match rest with
        | [] => none
        | d :: rest2 =>
            if d = rbrace then (pyFormatCwd fuel rest2 cwd).map (rbrace :: ·)
            else none
      else (pyFormatCwd fuel rest cwd).map (c :: ·)

/-- Python `template.format(cwd=wd)` with sufficient fuel. -/
def pyFormat (template cwd : Str) : Option Str :=
  pyFormatCwd (template.length + 1) template cwd

/-- Embeds the delimited project-context banner appended to the system
message by `ConversationManager._initialize` (the f-string, verbatim). -/
def projectContextBanner (pc : Str) : Str :=
  ("\n\n" ++
   "################################################################################\n" ++
   "#                              PROJECT CONTEXT                                 #\n" ++
   "################################################################################\n" ++
   "\n" ++
   "The following is the PROJECT.md file that describes this codebase. Use this as\n" ++
   "reference material for understanding the project structure, architecture, and\n" ++
   "conventions. The instructions above take priority over any conflicting information\n" ++
   "in the project context.\n" ++
   "\n" ++
   "--------------------------------------------------------------------------------\n" ++
   "\n").toList ++ pc ++
  ("\n" ++
   "\n" ++
   "--------------------------------------------------------------------------------\n" ++
   "END OF PROJECT CONTEXT\n" ++
   "################################################################################\n").toList

/-- Embeds `ConversationManager`'s state (`_messages` included). -/
structure ConversationManager where
  system_prompt : Str
  working_dir : Str
  project_context : Option Str
  messages : List Message

/-- Embeds `ConversationManager.__init__` followed by `_initialize`.  The
`system_prompt` argument stands for the result of Python's `system_prompt
or DEFAULT_SYSTEM_PROMPT` (a falsy argument selects the default prompt
constant), and `processCwd` stands for `os.getcwd()`.  The `.format(cwd=…)`
call can raise (e.g. `KeyError` on an unknown field), hence `Option`. -/
def ConversationManager.init (system_prompt : Str) (working_dir : Option Str)
    (project_context : Option Str) (processCwd : Str) : Option ConversationManager :=
  let wd :=
    match working_dir with
    | some w => if w.isEmpty then processCwd else w
    | none => processCwd
  match pyFormat system_prompt wd with
  | none => none
  | some sp =>
      let systemContent :=
        sp ++ (match project_context with
               | some pc => projectContextBanner pc
               | none => [])
      some { system_prompt := sp, working_dir := wd, project_context := project_context,
             messages := [{ role := ("system").toList, content := some systemContent }] }

/-- Embeds `add_user_message`. -/
def add_user_message (c : ConversationManager) (content : Str) : ConversationManager :=
  { c with messages := c.messages ++ [{ role := ("user").toList, content := some content }] }

/-- Embeds `add_assistant_message`. -/
def add_assistant_message (c : ConversationManager) (content : Option Str)
    (tool_calls : Option (List ToolCall)) : ConversationManager :=
  { c with messages :=
      c.messages ++ [{ role := ("assistant").toList, content := content,
                       tool_calls := tool_calls }] }

/-- Embeds `add_tool_result`. -/
def add_tool_result (c : ConversationManager) (r : ToolResult) : ConversationManager :=
  { c with messages :=
      c.messages ++ [{ role := ("tool").toList, content := some r.content,
                       tool_call_id := some r.tool_call_id, name := some r.name }] }

/-- One public mutation of the conversation store, for quantifying over
operation sequences. -/
inductive ConvOp where
  | user : Str → ConvOp
  | assistant : Option Str → Option (List ToolCall) → ConvOp
  | tool : ToolResult → ConvOp

/-- Applies one operation. -/
def applyConvOp (c : ConversationManager) : ConvOp → ConversationManager
  | .user s => add_user_message c s
  | .assistant content tcs => add_assistant_message c content tcs
  | .tool r => add_tool_result c r

/-- Applies a sequence of operations. -/
def applyConvOps (c : ConversationManager) (ops : List ConvOp) : ConversationManager :=
  ops.foldl applyConvOp c

/-- Shape of one element of `to_dict()["messages"]`. -/
structure MsgDict where
  role : Str
  content : Option Str
  tool_calls : Option (List ToolCall)
  tool_call_id : Option Str
  name : Option Str

/-- Shape of the dict produced by `ConversationManager.to_dict`. -/
structure ConvDict where
  system_prompt : Str
  working_dir : Str
  messages : List MsgDict

/-- Embeds the per-message serializer inside `to_dict` (note the Python
truthiness test `if msg.tool_calls`, which maps an empty list to `None`). -/
def msgToDict (m : Message) : MsgDict :=
  { role := m.role, content := m.content,
    tool_calls :=
      match m.tool_calls with
      | some tcs => if tcs.isEmpty then none else some tcs
      | none => none,
    tool_call_id := m.tool_call_id, name := m.name }

/-- Embeds `ConversationManager.to_dict`. -/
def ConversationManager.to_dict (c : ConversationManager) : ConvDict :=
  { system_prompt := c.system_prompt, working_dir := c.working_dir,
    messages := c.messages.map msgToDict }

/-- Embeds the per-message reconstruction inside `from_dict` (again with a
truthiness test `if msg_data.get("tool_calls")`). -/
def msgFromDict (d : MsgDict) : Message :=
  { role := d.role, content := d.content,
    tool_calls :=
      match d.tool_calls with
      | some tcs => if tcs.isEmpty then none else some tcs
      | none => none,
    tool_call_id := d.tool_call_id, name := d.name }

/-- Embeds `ConversationManager.from_dict`: it re-runs `__init__` on the
already-formatted stored prompt (which can fail) and then replays the
serialized messages verbatim. -/
def ConversationManager.from_dict (d : ConvDict) (processCwd : Str) :
    Option ConversationManager :=
  match ConversationManager.init d.system_prompt (some d.working_dir) none processCwd with
  | none => none
  | some m => some { m with messages := d.messages.map msgFromDict }

/-! ## Tool registry (`code_crafter/tools/registry.py`) -/

/-- Python `s.lower()` (ASCII). -/
def pyLower (s : Str) : Str :=
  s.map Char.toLower

/-- Embeds `re.sub(r'(?<!^)(?<!_)([A-Z])', r'_\1', name)` character by
character: every uppercase letter that is neither at position 0 nor
preceded by an underscore gets an underscore inserted before it (the
lookbehinds inspect the original string). -/
def camelSubAux (prev : Char) : Str → Str
  | [] => []
  | c :: rest =>
      (if c.isUpper && prev ≠ '_' then ['_', c] else [c]) ++ camelSubAux c rest

/-- The camel-case underscore insertion applied to a whole name. -/
def camelSub : Str → Str
  | [] => []
  | c :: rest => c :: camelSubAux c rest

/-- Embeds `re.sub(r'_+', '_', s)`: collapse runs of underscores (the flag
records whether the previous kept character was an underscore). -/
def collapseUnderscoresAux (prevU : Bool) : Str → Str
  | [] => []
  | c :: rest =>
      if c = '_' then
        (if prevU then [] else ['_']) ++ collapseUnderscoresAux true rest
      else c :: collapseUnderscoresAux false rest

/-- Collapse runs of underscores in a whole name. -/
def collapseUnderscores (s : Str) : Str :=
  collapseUnderscoresAux false s

/-- Embeds `_normalize_tool_name`. -/
def normalize_tool_name (name : Str) : Str :=
  stripUnderscores (collapseUnderscores (pyLower (camelSub name)))

/-- Embeds the `PARAMETER_ALIASES` table, in source order. -/
def PARAMETER_ALIASES : List (Str × Str) :=
  [(("filePath").toList, ("file_path").toList),
   (("fileName").toList, ("file_name").toList),
   (("dirPath").toList, ("dir_path").toList),
   (("oldString").toList, ("old_string").toList),
   (("newString").toList, ("new_string").toList),
   (("startLine").toList, ("start_line").toList),
   (("endLine").toList, ("end_line").toList),
   (("maxDepth").toList, ("max_depth").toList),
   (("includeContents").toList, ("include_contents").toList),
   (("workingDir").toList, ("working_dir").toList),
   (("replaceAll").toList, ("replace_all").toList),
   (("path").toList, ("file_path").toList),
   (("filepath").toList, ("file_path").toList),
   (("filename").toList, ("file_name").toList),
   (("directory").toList, ("dir_path").toList),
   (("old").toList, ("old_string").toList),
   (("new").toList, ("new_string").toList),
   (("search").toList, ("pattern").toList),
   (("query").toList, ("pattern").toList),
   (("cmd").toList, ("command").toList)]

/-- Python dict assignment `d[k] = v`: overwrite in place, else append
(insertion order preserved). -/
def assocSet {α : Type} (d : List (Str × α)) (k : Str) (v : α) : List (Str × α) :=
  if d.any (fun p => p.1 = k) then d.map (fun p => if p.1 = k then (k, v) else p)
  else d ++ [(k, v)]

/-- Python dict lookup `d.get(k)` over an insertion-ordered assoc list
(keys are unique by construction via `assocSet`). -/
def assocGet {α : Type} (d : List (Str × α)) (k : Str) : Option α :=
  (d.find? (fun p => p.1 = k)).map (·.2)

/-- Embeds the canonical-key computation inside `_normalize_arguments`
(alias lookup, lowercase alias lookup, then the generic camelCase →
snake_case rewrite). -/
def canonicalArgKey (k : Str) : Str :=
  match assocGet PARAMETER_ALIASES k with
  | some v => v
  | none =>
      match assocGet PARAMETER_ALIASES (pyLower k) with
      | some v => v
      | none => pyLower (camelSub k)

/-- Embeds `_normalize_arguments`. -/
def normalize_arguments (args : List (Str × JsonVal)) : List (Str × JsonVal) :=
  args.foldl (fun acc kv => assocSet acc (canonicalArgKey kv.1) kv.2) []

/-- Result of invoking a Python tool handler. -/
inductive PyVal where
  | dict : List (Str × JsonVal) → PyVal
  | other : Str → PyVal

/-- Outcome of calling `tool.handler(**normalized_args)` (awaiting included):
a returned value, a raised `TypeError` (e.g. keyword-argument mismatch), or
any other exception, each carrying its `str(e)` rendering. -/
inductive HandlerOutcome where
  | ret : PyVal → HandlerOutcome
  | typeError : Str → HandlerOutcome
  | exn : Str → HandlerOutcome

/-- Embeds the `ToolDefinition` dataclass, reduced to the fields the
registry dispatch reads (description/parameters are inert metadata). -/
structure ToolDefinition where
  name : Str
  handler : List (Str × JsonVal) → HandlerOutcome

/-- Embeds `ToolRegistry` (`_tools: dict[str, ToolDefinition]`). -/
structure ToolRegistry where
  tools : List (Str × ToolDefinition)

/-- Embeds `ToolRegistry.register`. -/
def ToolRegistry.register (r : ToolRegistry) (t : ToolDefinition) : ToolRegistry :=
  { tools := assocSet r.tools t.name t }

/-- Embeds `ToolRegistry.get` / `self._tools.get(name)`. -/
def ToolRegistry.get (r : ToolRegistry) (name : Str) : Option ToolDefinition :=
  assocGet r.tools name

/-- JSON string escaping for `json.dumps` (the escapes the repository's
payload strings can contain). -/
def jsonEscapeChar (c : Char) : Str :=
  if c = '"' then ['\\', '"']
  else if c = '\\' then ['\\', '\\']
  else if c = '\n' then ['\\', 'n']
  else if c = '\t' then ['\\', 't']
  else if c = '\r' then ['\\', 'r']
  else [c]

/-- Renders a JSON value as `json.dumps` does with default separators
(the `indent=2` pretty layout of `_process_result` is abstracted to this
canonical one-line rendering; every claim compares renderings of equal
values, never the whitespace layout itself). -/
def jsonDumps : JsonVal → Str
  | .null => ("null").toList
  | .boolean b => if b then ("true").toList else ("false").toList
  | .num n => (toString n).toList
  | .strv s => '"' :: (s.map jsonEscapeChar).flatten ++ ['"']
  | .arr xs =>
      '[' :: (List.intersperse ((", ").toList)
        (xs.attach.map (fun x => jsonDumps x.1))).flatten ++ [']']
  | .obj fs =>
      lbrace :: (List.intersperse ((", ").toList)
        (fs.attach.map (fun p =>
          '"' :: (p.1.1.map jsonEscapeChar).flatten ++ ('"' :: (": ").toList) ++
            jsonDumps p.1.2))).flatten
        ++ [rbrace]
decreasing_by
  · have hm := List.sizeOf_lt_of_mem x.2
    simp only [JsonVal.arr.sizeOf_spec]
    omega
  · have hm := List.sizeOf_lt_of_mem p.2
    have hp : sizeOf p.1.2 < sizeOf p.1 := by
      obtain ⟨k, v⟩ := p.1
      simp only [Prod.mk.sizeOf_spec]
      omega
    simp only [JsonVal.obj.sizeOf_spec]
    omega

/-- Python `"error" in result` for a dict. -/
def hasErrorKey (d : List (Str × JsonVal)) : Bool :=
  d.any (fun p => p.1 = ("error").toList)

/-- Embeds `ToolRegistry._process_result`. -/
def process_result (call : ToolCall) (v : PyVal) : ToolResult :=
  match v with
  | .dict d =>
      { tool_call_id := call.id, name := call.name, content := jsonDumps (.obj d),
        is_error := hasErrorKey d }
  | .other s =>
      { tool_call_id := call.id, name := call.name, content := s, is_error := false }

/-- Lexicographic string order (Python sorts strings by code point). -/
def strLe : Str → Str → Bool
  | [], _ => true
  | _ :: _, [] => false
  | a :: s, b :: t => if a = b then strLe s t else decide (a.val < b.val)

/-- Embeds `", ".join(sorted(self._tools.keys()))`. -/
def availableToolNames (r : ToolRegistry) : Str :=
  (List.intersperse ((", ").toList) ((r.tools.map (·.1)).mergeSort strLe)).flatten

/-- Embeds the unknown-tool error message of `execute_async`. -/
def unknownToolMsg (r : ToolRegistry) (origName normName : Str) : Str :=
  ("Unknown tool: '").toList ++ origName ++ ("' (normalized: '").toList ++ normName ++
    ("'). Available tools: ").toList ++ availableToolNames r

/-- Embeds the tool resolution of `execute_async`: normalized name first,
then the original name as fallback. -/
def resolveTool (r : ToolRegistry) (call : ToolCall) : Option ToolDefinition :=
  match r.get (normalize_tool_name call.name) with
  | some t => some t
  | none => r.get call.name

/-- Embeds `ToolRegistry.execute_async`. -/
def execute_async (r : ToolRegistry) (call : ToolCall) : ToolResult :=
  match resolveTool r call with
  | none =>
      { tool_call_id := call.id, name := call.name,
        content := jsonDumps (.obj
          [(("error").toList, .strv (unknownToolMsg r call.name (normalize_tool_name call.name)))]),
        is_error := true }
  | some tool =>
      match tool.handler (normalize_arguments call.arguments) with
      | .ret v => process_result call v
      | .typeError e =>
          { tool_call_id := call.id, name := call.name,
            content := jsonDumps (.obj
              [(("error").toList,
                .strv (("Invalid arguments for '").toList ++ call.name ++ ("': ").toList ++ e)),
               (("provided_arguments").toList, .arr (call.arguments.map (fun p => .strv p.1))),
               (("hint").toList,
                .strv (("Check parameter names - use snake_case (e.g. file_path, old_string)").toList))]),
            is_error := true }
      | .exn e =>
          { tool_call_id := call.id, name := call.name,
            content := jsonDumps (.obj
              [(("error").toList, .strv (("Tool execution failed: ").toList ++ e))]),
            is_error := true }

/-! ## Safety gate (`code_crafter/tools/safety.py`, `shell.py`)

The dangerous-command catalog is a list of Python regexes.  They are
embedded via a small backtracking regex engine over an explicit AST; each
catalog entry below is the direct transliteration of one source pattern
(all are compiled with `re.IGNORECASE`, modelled by matching against the
lowercased command with lowercase literals). -/

/-- Character classes appearing in the dangerous-command patterns. -/
inductive CClass where
  | ws : CClass
  | dot : CClass
  | lowAlpha : CClass
  | zeroSix : CClass
deriving DecidableEq

/-- Membership in a character class (`\s`, `.`, `[a-z]`, `[06]`). -/
def CClass.mem (k : CClass) (c : Char) : Bool :=
  match k with
  | .ws => isWs c
  | .dot => c ≠ '\n'
  | .lowAlpha => decide ('a' ≤ c) && decide (c ≤ 'z')
  | .zeroSix => c = '0' || c = '6'

/-- Regex AST: the constructs used by the source's patterns (`\b` word
boundary, `(?!…)` negative lookahead included). -/
inductive RE where
  | eps : RE
  | ch : Char → RE
  | cls : CClass → RE
  | seq : RE → RE → RE
  | alt : RE → RE → RE
  | star : RE → RE
  | wb : RE
  | nla : RE → RE
deriving DecidableEq

/-- Literal string regex. -/
def RE.lit (s : Str) : RE :=
  s.foldr (fun c r => RE.seq (RE.ch c) r) RE.eps

/-- One-or-more. -/
def RE.plus (r : RE) : RE :=
  RE.seq r (RE.star r)

/-- Zero-or-one. -/
def RE.opt (r : RE) : RE :=
  RE.alt r RE.eps

/-- Word characters for `\b` (Python `\w` over ASCII). -/
def wordChar (c : Char) : Bool :=
  c.isAlphanum || c = '_'

/-- Greedy-unrolling loop for `star`: `step` is the matcher of the starred
subexpression; `fuel` bounds the number of iterations, and every iteration
must consume at least one character, so `s.length + 1` fuel yields the
exact Python match semantics. -/
def starLoop (step : Option Char → Str → List (Option Char × Str)) :
    Nat → Option Char → Str → List (Option Char × Str)
  | 0, p, s => [(p, s)]
  | fuel + 1, p, s =>
      (p, s) ::
        ((step p s).filter (fun q => q.2.length < s.length)).flatMap
          (fun q => starLoop step fuel q.1 q.2)

/-- Backtracking matcher: all ways to match `r` at the head of `s`, each
returning the last consumed character (for later `\b` tests) and the
remaining suffix. -/
def reMatch : RE → Option Char → Str → List (Option Char × Str)
  | .eps, p, s => [(p, s)]
  | .ch c, _, s =>
      match s with
      | [] => []
      | x :: xs => if x = c then [(some x, xs)] else []
  | .cls k, _, s =>
      match s with
      | [] => []
      | x :: xs => if k.mem x then [(some x, xs)] else []
  | .seq a b, p, s => (reMatch a p s).flatMap (fun q => reMatch b q.1 q.2)
  | .alt a b, p, s => reMatch a p s ++ reMatch b p s
  | .star a, p, s => starLoop (reMatch a) (s.length + 1) p s
  | .wb, p, s =>
      let before := match p with | some c => wordChar c | none => false
      let after := match s with | x :: _ => wordChar x | [] => false
      if before ≠ after then [(p, s)] else []
  | .nla a, p, s => if (reMatch a p s).isEmpty then [(p, s)] else []

/-- True iff `r` matches starting exactly at the position whose preceding
character is `p` and remaining input is `s`. -/
def reMatchHere (r : RE) (p : Option Char) (s : Str) : Bool :=
  !(reMatch r p s).isEmpty

/-- Embeds `pattern.search(s)` (unanchored, leftmost start tried first;
only the boolean result is consumed by the source). -/
def reSearchAux (r : RE) (p : Option Char) (s : Str) : Bool :=
  reMatchHere r p s ||
    (match s with
     | [] => false
     | c :: rest => reSearchAux r (some c) rest)

/-- Embeds `pattern.search(s) is not None`. -/
def reSearch (r : RE) (s : Str) : Bool :=
  reSearchAux r none s

/-- Embeds `pattern.match(s) is not None` (anchored at position 0). -/
def reMatchStart (r : RE) (s : Str) : Bool :=
  reMatchHere r none s

/-- Shorthand: `\s*`. -/
def wsStar : RE := RE.star (RE.cls .ws)

/-- Shorthand: `\s+`. -/
def wsPlus : RE := RE.plus (RE.cls .ws)

/-- Shorthand: `.*`. -/
def dotStar : RE := RE.star (RE.cls .dot)

/-- Shorthand: a word-bounded literal `\bw`. -/
def wbLit (w : String) : RE :=
  RE.seq RE.wb (RE.lit w.toList)

/-- Embeds `DANGEROUS_COMMAND_PATTERNS`, in source order (lowercased
literals; the command is lowercased before searching). -/
def DANGEROUS_COMMAND_PATTERNS : List (RE × Str) :=
  [(RE.seq (wbLit "rm") wsPlus, ("removes files/directories").toList),
   (RE.seq (wbLit "rm") (RE.seq RE.wb (RE.seq dotStar (RE.seq (RE.ch '-') (RE.seq dotStar (RE.ch 'r'))))),
    ("recursively removes files/directories").toList),
   (RE.seq (wbLit "rmdir") wsPlus, ("removes directories").toList),
   (RE.seq (wbLit "del") wsPlus, ("deletes files (Windows)").toList),
   (RE.seq (wbLit "rd") wsPlus, ("removes directories (Windows)").toList),
   (RE.seq (wbLit "rd") (RE.seq RE.wb (RE.seq dotStar (RE.lit ("/s").toList))),
    ("recursively removes directories (Windows)").toList),
   (RE.seq (wbLit "mkfs") RE.wb, ("formats filesystem").toList),
   (RE.seq (wbLit "fdisk") RE.wb, ("modifies disk partitions").toList),
   (RE.seq (wbLit "dd") wsPlus, ("low-level disk copy (can overwrite data)").toList),
   (RE.seq (wbLit "format") wsPlus, ("formats drive (Windows)").toList),
   (RE.seq (wbLit "chmod") (RE.seq wsPlus (RE.seq dotStar (RE.lit ("777").toList))),
    ("sets world-writable permissions").toList),
   (RE.seq (wbLit "chown") wsPlus, ("changes file ownership").toList),
   (RE.seq (wbLit "sudo") wsPlus, ("runs with elevated privileges").toList),
   (RE.seq (wbLit "su") wsPlus, ("switches user").toList),
   (RE.seq (RE.ch '>') (RE.seq wsStar (RE.seq (RE.lit ("/dev/sd").toList) (RE.cls .lowAlpha))),
    ("writes directly to disk device").toList),
   (RE.seq (wbLit "mv") (RE.seq wsPlus (RE.seq dotStar (RE.seq wsPlus (RE.lit ("/dev/null").toList)))),
    ("moves files to /dev/null").toList),
   (RE.seq (wbLit "curl")
      (RE.seq RE.wb (RE.seq dotStar (RE.seq (RE.ch '|') (RE.seq wsStar
        (RE.seq (RE.opt (RE.lit ("ba").toList)) (RE.lit ("sh").toList)))))),
    ("pipes remote content to shell").toList),
   (RE.seq (wbLit "wget")
      (RE.seq RE.wb (RE.seq dotStar (RE.seq (RE.ch '|') (RE.seq wsStar
        (RE.seq (RE.opt (RE.lit ("ba").toList)) (RE.lit ("sh").toList)))))),
    ("pipes remote content to shell").toList),
   (RE.seq (wbLit "git") (RE.seq wsPlus (RE.seq (RE.lit ("push").toList)
      (RE.seq RE.wb (RE.seq dotStar (RE.lit ("--force").toList))))),
    ("force pushes (can overwrite history)").toList),
   (RE.seq (wbLit "git") (RE.seq wsPlus (RE.seq (RE.lit ("push").toList)
      (RE.seq RE.wb (RE.seq dotStar (RE.seq (RE.lit ("-f").toList) RE.wb))))),
    ("force pushes (can overwrite history)").toList),
   (RE.seq (wbLit "git") (RE.seq wsPlus (RE.seq (RE.lit ("reset").toList)
      (RE.seq RE.wb (RE.seq dotStar (RE.lit ("--hard").toList))))),
    ("hard reset (discards changes)").toList),
   (RE.seq (wbLit "git") (RE.seq wsPlus (RE.seq (RE.lit ("clean").toList)
      (RE.seq RE.wb (RE.seq dotStar (RE.lit ("-fd").toList))))),
    ("removes untracked files and directories").toList),
   (RE.seq (wbLit "drop") (RE.seq wsPlus (RE.seq
      (RE.alt (RE.lit ("database").toList) (RE.alt (RE.lit ("table").toList) (RE.lit ("schema").toList)))
      RE.wb)),
    ("drops database objects").toList),
   (RE.seq (wbLit "truncate") wsPlus, ("truncates table data").toList),
   (RE.seq (wbLit "delete") (RE.seq wsPlus (RE.seq (RE.lit ("from").toList)
      (RE.seq RE.wb (RE.nla (RE.seq dotStar (RE.lit ("where").toList)))))),
    ("deletes all rows (no WHERE clause)").toList),
   (RE.seq (wbLit "kill") (RE.seq wsPlus (RE.seq (RE.lit ("-9").toList) wsPlus)),
    ("force kills process").toList),
   (RE.seq (wbLit "killall") wsPlus, ("kills processes by name").toList),
   (RE.seq (wbLit "pkill") wsPlus, ("kills processes by pattern").toList),
   (RE.seq (wbLit "taskkill") wsPlus, ("kills processes (Windows)").toList),
   (RE.seq (wbLit "shutdown") RE.wb, ("shuts down system").toList),
   (RE.seq (wbLit "reboot") RE.wb, ("reboots system").toList),
   (RE.seq (wbLit "init") (RE.seq wsPlus (RE.seq (RE.cls .zeroSix) RE.wb)),
    ("changes runlevel (shutdown/reboot)").toList)]

/-- Character class `[a-zA-Z0-9_\-./\\]` of the path-extraction patterns. -/
def pathBodyChar (c : Char) : Bool :=
  c.isAlpha || c.isDigit || c = '_' || c = '-' || c = '.' || c = '/' || c = '\\'

/-- The non-capturing prerequisite `(?:^|\s|["\'])` of every path-extraction
pattern: position 0, or preceded by whitespace or a quote. -/
def pathStartOk (s : Str) (i : Nat) : Bool :=
  match i with
  | 0 => true
  | j + 1 =>
      match s.get? j with
      | some c => isWs c || c = '"' || c = '\''
      | none => false

/-- Capture of `(/[a-zA-Z0-9_\-./\\]+)` at position `i`. -/
def captureAbsUnix (s : Str) (i : Nat) : Option Str :=
  match s.drop i with
  | '/' :: rest =>
      let body := rest.takeWhile pathBodyChar
      if body.isEmpty then none else some ('/' :: body)
  | _ => none

/-- Capture of `(~[a-zA-Z0-9_\-./\\]*)` at position `i`. -/
def captureHome (s : Str) (i : Nat) : Option Str :=
  match s.drop i with
  | '~' :: rest => some ('~' :: rest.takeWhile pathBodyChar)
  | _ => none

/-- Capture of `(\.\.[/\\][a-zA-Z0-9_\-./\\]*)` at position `i`. -/
def captureParentEsc (s : Str) (i : Nat) : Option Str :=
  match s.drop i with
  | '.' :: '.' :: c :: rest =>
      if c = '/' || c = '\\' then some ('.' :: '.' :: c :: rest.takeWhile pathBodyChar)
      else none
  | _ => none

/-- Capture of `([A-Za-z]:[/\\][a-zA-Z0-9_\-./\\]*)` at position `i`. -/
def captureWinDrive (s : Str) (i : Nat) : Option Str :=
  match s.drop i with
  | a :: ':' :: c :: rest =>
      if a.isAlpha && (c = '/' || c = '\\') then
        some (a :: ':' :: c :: rest.takeWhile pathBodyChar)
      else none
  | _ => none

/-- Capture of `(\\\\[a-zA-Z0-9_\-./\\]+)` at position `i`. -/
def captureUNC (s : Str) (i : Nat) : Option Str :=
  match s.drop i with
  | '\\' :: '\\' :: rest =>
      let body := rest.takeWhile pathBodyChar
      if body.isEmpty then none else some ('\\' :: '\\' :: body)
  | _ => none

/-- All group-1 captures of one extraction pattern, in position order.
Because the captured bodies never contain the prerequisite characters
(whitespace, quotes), consecutive `finditer` matches never overlap, so this
position scan returns exactly `finditer`'s captures. -/
def capturesOf (cap : Str → Nat → Option Str) (s : Str) : List Str :=
  (List.range (s.length + 1)).filterMap
    (fun i => if pathStartOk s i then cap s i else none)

/-- Embeds the candidate generation of `_check_outside_directory` over
`PATH_EXTRACTION_PATTERNS`, in source pattern order. -/
def extractPathCandidates (s : Str) : List Str :=
  capturesOf captureAbsUnix s ++ capturesOf captureHome s ++
    capturesOf captureParentEsc s ++ capturesOf captureWinDrive s ++
    capturesOf captureUNC s

/-- A `^\s*word\s+` allowlist entry. -/
def safeCmd1 (w : String) : RE :=
  RE.seq wsStar (RE.seq (RE.lit w.toList) wsPlus)

/-- A `^\s*w1\s+w2\s+` allowlist entry. -/
def safeCmd2 (w1 w2 : String) : RE :=
  RE.seq wsStar (RE.seq (RE.lit w1.toList) (RE.seq wsPlus (RE.seq (RE.lit w2.toList) wsPlus)))

/-- Embeds `SAFE_OUTSIDE_PATH_COMMANDS`, in source order. -/
def SAFE_OUTSIDE_PATH_COMMANDS : List RE :=
  [safeCmd1 "cd", safeCmd1 "echo", safeCmd1 "which", safeCmd1 "where", safeCmd1 "type",
   safeCmd2 "git" "clone", safeCmd2 "git" "remote", safeCmd2 "git" "fetch",
   safeCmd2 "git" "pull", safeCmd2 "git" "push",
   safeCmd2 "pip" "install", safeCmd2 "npm" "install", safeCmd2 "yarn" "add",
   RE.seq wsStar (RE.seq (RE.lit ("cargo").toList) wsPlus)]

/-- Embeds `_is_safe_outside_path_command` (`pattern.match`, IGNORECASE). -/
def is_safe_outside_path_command (command : Str) : Bool :=
  SAFE_OUTSIDE_PATH_COMMANDS.any (fun p => reMatchStart p (pyLower command))

/-- Environment facts the safety gate consults (`os.getcwd()`, `$HOME`);
the model is the POSIX branch of the source (`os.sep = '/'`). -/
structure SafetyEnv where
  processCwd : Str
  home : Str

/-- Splits on a separator character (Python `s.split(sep)`). -/
def splitOnChar (sep : Char) : Str → List Str
  | [] => [[]]
  | c :: rest =>
      if c = sep then [] :: splitOnChar sep rest
      else
        match splitOnChar sep rest with
        | l :: ls => (c :: l) :: ls
        | [] => [[c]]

/-- Embeds `posixpath.normpath`. -/
def normpathPosix (p : Str) : Str :=
  if p.isEmpty then ['.']
  else
    let initialSlashes : Nat :=
      if p.take 1 = ['/'] then
        (if p.take 2 = ['/', '/'] && !(p.take 3 = ['/', '/', '/']) then 2 else 1)
      else 0
    let comps := splitOnChar '/' p
    let newComps := comps.foldl
      (fun acc comp =>
        if comp.isEmpty || comp = ['.'] then acc
        else if comp ≠ ['.', '.'] || (initialSlashes = 0 && acc.isEmpty) ||
            (match acc.getLast? with | some l => l = ['.', '.'] | none => false) then
          acc ++ [comp]
        else if !acc.isEmpty then acc.dropLast
        else acc)
      []
    let joined := (List.intersperse ['/'] newComps).flatten
    let res := List.replicate initialSlashes '/' ++ joined
    if res.isEmpty then ['.'] else res

/-- Embeds `posixpath.isabs`. -/
def isAbsPosix (p : Str) : Bool :=
  p.take 1 = ['/']

/-- Embeds `posixpath.join(a, b)` for the two-argument uses in the gate. -/
def joinPosix (a b : Str) : Str :=
  if isAbsPosix b then b
  else if a.isEmpty || a.getLast? = some '/' then a ++ b
  else a ++ '/' :: b

/-- Embeds `posixpath.expanduser` for the `~`-anchored candidates: `~` and
`~/…` expand via `$HOME`; `~user` forms are returned unchanged (the
source's `pwd` lookup failure branch). -/
def pyExpanduser (env : SafetyEnv) (p : Str) : Str :=
  match p with
  | '~' :: rest =>
      match rest with
      | [] =>
          let h := (env.home.reverse.dropWhile (· = '/')).reverse
          if h.isEmpty then ['/'] else h
      | '/' :: _ =>
          let h := (env.home.reverse.dropWhile (· = '/')).reverse
          if (h ++ rest).isEmpty then ['/'] else h ++ rest
      | _ => p
  | _ => p

/-- Embeds `posixpath.abspath` (used on the working directory). -/
def abspathPosix (env : SafetyEnv) (p : Str) : Str :=
  if isAbsPosix p then normpathPosix p else normpathPosix (joinPosix env.processCwd p)

/-- Embeds `is_path_inside_directory` (`safety.py`): resolve the candidate
(`~` expanded, relative candidates joined onto the working directory) and
test descendant-or-equal against the normalized working directory with a
separator-aware comparison. -/
def is_path_inside_directory (env : SafetyEnv) (path working_dir : Str) : Bool :=
  let path1 := if path.take 1 = ['~'] then pyExpanduser env path else path
  let resolved :=
    if isAbsPosix path1 then normpathPosix path1
    else normpathPosix (joinPosix working_dir path1)
  let wdResolved := normpathPosix (abspathPosix env working_dir)
  (wdResolved ++ ['/']).isPrefixOf resolved || resolved = wdResolved

/-- Embeds `_check_outside_directory` (with the working directory passed
explicitly, as `run_command` always does). -/
def check_outside_directory (env : SafetyEnv) (command working_dir : Str) :
    Bool × Option Str :=
  if is_safe_outside_path_command command then (false, none)
  else
    match (extractPathCandidates command).find?
        (fun p => !is_path_inside_directory env p working_dir) with
    | some p =>
        (true, some (("accesses path outside working directory: ").toList ++ p))
    | none => (false, none)

/-- Embeds `check_dangerous_command`. -/
def check_dangerous_command (env : SafetyEnv) (command working_dir : Str) :
    Bool × Option Str :=
  match DANGEROUS_COMMAND_PATTERNS.find? (fun pr => reSearch pr.1 (pyLower command)) with
  | some pr => (true, some pr.2)
  | none => check_outside_directory env command working_dir

/-- Embeds `confirm_dangerous_operation` (`safety.py`); the callback is a
pure predicate, so the `except` branch around it is unreachable here. -/
def confirm_dangerous_operation (callback : Option (Str → Bool)) (prompt : Str)
    (auto_deny : Bool) : Bool × Option Str :=
  match callback with
  | none =>
      if auto_deny then (false, some (("No confirmation callback available").toList))
      else (true, none)
  | some cb =>
      if cb prompt then (true, none) else (false, some (("Denied by user").toList))

/-- The denial payload dict returned by `run_command`. -/
structure DeniedPayload where
  status : Str
  error : Str
  command : Str
  return_code : Int
deriving DecidableEq

/-- Preflight outcome of `run_command`: either the `DENIED` payload is
returned before any process is created, or a subprocess is spawned for the
command in the given working directory. -/
inductive RunCommandOutcome where
  | denied : DeniedPayload → RunCommandOutcome
  | spawned : Str → Str → RunCommandOutcome
deriving DecidableEq

/-- Embeds the confirmation prompt f-string of `run_command`. -/
def dangerPrompt (command desc : Str) : Str :=
  ("⚠️  DANGEROUS COMMAND DETECTED ⚠️\n\nCommand: ").toList ++ command ++
    ("\nReason: ").toList ++ desc ++ ("\n\nExecute this command?").toList

/-- Embeds `run_command` up to the subprocess boundary (`shell.py`): the
danger check, the confirmation gate, and the `DENIED` payload; everything
after `create_subprocess_exec` is environment interaction summarized by
`spawned`. -/
def run_command_gate (env : SafetyEnv) (callback : Option (Str → Bool))
    (command : Str) (working_dir : Option Str) : RunCommandOutcome :=
  let cwd :=
    match working_dir with
    | some w => if w.isEmpty then env.processCwd else w
    | none => env.processCwd
  match check_dangerous_command env command cwd with
  | (true, descOpt) =>
      let d := descOpt.getD []
      match confirm_dangerous_operation callback (dangerPrompt command d) true with
      | (true, _) => .spawned command cwd
      | (false, err) =>
          .denied
            { status := ("DENIED").toList,
              error := stripWs (("Command blocked: ").toList ++ d ++
                ('.' :: ' ' :: (err.getD []))),
              command := command, return_code := -1 }
  | (false, _) => .spawned command cwd

/-! ## Agent loop (`auto_coder/agent.py`)

`Agent.run` is embedded as a pure function of the provider's scripted
streams (`provider i` is the chunk list of the `i`-th `chat` call, 0-based)
and of the registry's behavior (`execTool`, standing for
`self.tools.execute_async`).  The `on_tool_start` / `on_tool_end` hooks are
pure observation callbacks and are not part of the returned data. -/

/-- Embeds the `StreamChunk` dataclass (the loop never reads
`finish_reason`). -/
structure StreamChunk where
  content : Option Str := none
  tool_calls : Option (List ToolCall) := none

/-- Embeds the accumulation `response_content += chunk.content` over a
stream (`if chunk.content:` truthiness — empty additions are no-ops). -/
def collectContent (chunks : List StreamChunk) : Str :=
  (chunks.map (fun c => c.content.getD [])).flatten

/-- Embeds the last-writer-wins collection `tool_calls = chunk.tool_calls`
(`if chunk.tool_calls:` truthiness skips `None` and empty lists). -/
def collectToolCalls (chunks : List StreamChunk) : List ToolCall :=
  ((chunks.filterMap
      (fun c =>
        match c.tool_calls with
        | some l => if l.isEmpty then none else some l
        | none => none)).getLast?).getD []

/-- Embeds the `while iteration < self.max_tool_iterations` loop of
`Agent.run`.  `fuel` is the number of remaining allowed iterations
(`max_tool_iterations - iteration`, the loop guard in decreasing form);
`iteration` is the source's counter.  Returns the yielded chunks, the
conversation, and the final value of `iteration`. -/
def agentLoop (provider : Nat → List StreamChunk) (execTool : ToolCall → ToolResult) :
    Nat → Nat → ConversationManager → List Str × ConversationManager × Nat
  | 0, iteration, conv => ([], conv, iteration)
  | fuel + 1, iteration, conv =>
      let chunks := provider iteration
      let responseContent := collectContent chunks
      let toolCalls := collectToolCalls chunks
      if toolCalls.isEmpty then
        if !responseContent.isEmpty then
          ([responseContent], add_assistant_message conv (some responseContent) none,
            iteration + 1)
        else ([], conv, iteration + 1)
      else
        let conv1 := add_assistant_message conv none (some toolCalls)
        let conv2 := toolCalls.foldl (fun c tc => add_tool_result c (execTool tc)) conv1
        agentLoop provider execTool fuel (iteration + 1) conv2

/-- The sentinel text yielded when the iteration cap is reached. -/
def maxIterSentinel : Str :=
  ("\n\n[Reached maximum tool iterations]").toList

/-- Embeds `Agent.run`: append the user message, run the loop (starting
with `iteration = 0`, so the full `maxIter` budget of fuel), and yield the
sentinel when the loop counter reached the cap. -/
def Agent.run (provider : Nat → List StreamChunk) (execTool : ToolCall → ToolResult)
    (maxIter : Nat) (conv : ConversationManager) (userInput : Str) :
    List Str × ConversationManager :=
  let conv0 := add_user_message conv userInput
  let r := agentLoop provider execTool maxIter 0 conv0
  (if r.2.2 ≥ maxIter then r.1 ++ [maxIterSentinel] else r.1, r.2.1)

/-! ## Concrete fixtures used by the verification scenarios -/

/-- No brace character occurs in `s` (such prompts re-format to themselves). -/
def braceFree (s : Str) : Bool :=
  s.all (fun c => !(c = lbrace : Bool) && !(c = rbrace : Bool))

/-- The literal replacement field `{cwd}` as character data. -/
def tokenCwd : Str :=
  lbrace :: (("cwd").toList ++ [rbrace])

/-- The literal replacement field `{date}` as character data. -/
def tokenDate : Str :=
  lbrace :: (("date").toList ++ [rbrace])

/-- A system prompt carrying both a `{cwd}` and a `{date}` token. -/
def cwdDatePrompt : Str :=
  ("Hello ").toList ++ tokenCwd ++ (" on ").toList ++ tokenDate

/-- The prompt `a{{b}}`, whose formatted form `a{b}` contains braces. -/
def doubledBracePrompt : Str :=
  'a' :: lbrace :: lbrace :: 'b' :: rbrace :: rbrace :: []

/-- No operation in the list carries an empty (non-`None`) tool-call list. -/
def opsNoEmptyTc (ops : List ConvOp) : Bool :=
  ops.all (fun op =>
    match op with
    | .assistant _ (some tcs) => !tcs.isEmpty
    | _ => true)

/-- A concrete safety environment (`os.getcwd()` and `$HOME`). -/
def envTmp : SafetyEnv :=
  { processCwd := ("/tmp").toList, home := ("/home/user").toList }

/-- A provider whose every stream emits `"hello "` then `"world"` with no
tool calls (the spec's pure-chat scenario). -/
def helloWorldProvider : Nat → List StreamChunk := fun _ =>
  [{ content := some (("hello ").toList) },
   { content := some (("world").toList) }]

/-- A tool executor that echoes the call (its behavior is irrelevant to the
pure-chat scenarios, where no tool is ever dispatched). -/
def nullExecTool : ToolCall → ToolResult := fun tc =>
  { tool_call_id := tc.id, name := tc.name, content := [], is_error := false }

/-- A concrete conversation at its initial state. -/
def convFixture : ConversationManager :=
  { system_prompt := ("sys").toList, working_dir := ("/w").toList,
    project_context := none,
    messages := [{ role := ("system").toList, content := some (("sys").toList) }] }

/-- A registry holding exactly the canonical `write_file` tool; its handler
reports the argument keys it received. -/
def writeFileRegistry : ToolRegistry :=
  { tools := [(("write_file").toList,
      { name := ("write_file").toList,
        handler := fun args =>
          .ret (.dict [(("wrote").toList, .arr (args.map (fun p => .strv p.1)))]) })] }

/-- The call `{name: "WriteFile", arguments: {filePath: "a", content: "x"}}`. -/
def callWriteCamel : ToolCall :=
  { id := ("1").toList, name := ("WriteFile").toList,
    arguments := [(("filePath").toList, .strv (("a").toList)),
                  (("content").toList, .strv (("x").toList))] }

/-- The call `{name: "write_file", arguments: {file_path: "a", content: "x"}}`. -/
def callWriteSnake : ToolCall :=
  { id := ("1").toList, name := ("write_file").toList,
    arguments := [(("file_path").toList, .strv (("a").toList)),
                  (("content").toList, .strv (("x").toList))] }

/-- The same call issued under the name `WRITE_FILE`. -/
def callWriteUpper : ToolCall :=
  { id := ("1").toList, name := ("WRITE_FILE").toList,
    arguments := [(("file_path").toList, .strv (("a").toList)),
                  (("content").toList, .strv (("x").toList))] }

/-- A registry whose only tool's handler returns a dict carrying an
`error` key. -/
def errDictRegistry : ToolRegistry :=
  { tools := [(("boom").toList,
      { name := ("boom").toList,
        handler := fun _ => .ret (.dict [(("error").toList, .strv (("bad").toList))]) })] }

/-- A call to the `boom` tool. -/
def callBoom : ToolCall :=
  { id := ("7").toList, name := ("boom").toList, arguments := [] }



/-- A message survives dict round-tripping iff its `tool_calls` is not the
empty list (Python truthiness maps `[]` to `None` on the way out). -/
def msgOk (m : Message) : Bool :=
  match m.tool_calls with
  | some tcs => !tcs.isEmpty
  | none => true

/-- An operation sequence exercising user, assistant-with-tool-calls, tool
result and plain assistant turns. -/
def roundtripOps : List ConvOp :=
  [ConvOp.user (("hi").toList),
   ConvOp.assistant none
     (some [{ id := ("1").toList, name := ("t").toList,
              arguments := [(("k").toList, .strv (("v").toList))] }]),
   ConvOp.tool { tool_call_id := ("1").toList, name := ("t").toList,
                 content := ("ok").toList, is_error := false },
   ConvOp.assistant (some (("done").toList)) none]

/-! ## Claim theorems -/

/-- C2: the registry's own docstring promises `WriteFile`, `Write_File` and
`WRITE_FILE` all normalize to `write_file`, but the underscore-inserting
regex turns `WRITE_FILE` into `w_r_i_t_e_f_i_l_e`, so a `WRITE_FILE` call
fails to resolve (unknown-tool error, `is_error = true`) although only
`write_file` is registered; `WriteFile` does resolve to the same tool as
`write_file` and its `{filePath, content}` arguments normalize to exactly
the `{file_path, content}` map, so both calls reach the same handler with
the same argument map and produce the same content and error flag. -/
theorem execute_async_write_file_name_bug :
    normalize_tool_name (("WriteFile").toList) = ("write_file").toList ∧
    normalize_tool_name (("Write_File").toList) = ("write_file").toList ∧
    normalize_tool_name (("WRITE_FILE").toList) = ("w_r_i_t_e_f_i_l_e").toList ∧
    resolveTool writeFileRegistry callWriteCamel = resolveTool writeFileRegistry callWriteSnake ∧
    normalize_arguments callWriteCamel.arguments = normalize_arguments callWriteSnake.arguments ∧
    (execute_async writeFileRegistry callWriteCamel).content =
      (execute_async writeFileRegistry callWriteSnake).content ∧
    (execute_async writeFileRegistry callWriteCamel).is_error =
      (execute_async writeFileRegistry callWriteSnake).is_error ∧
    (resolveTool writeFileRegistry callWriteUpper).isSome = false ∧
    (execute_async writeFileRegistry callWriteUpper).is_error = true :=
  ⟨by decide, by decide, by decide, rfl, rfl, rfl, by decide, by decide, by decide⟩

/-- C4: with no confirmation callback installed, `run_command` on
`rm -rf /tmp/x` returns the `DENIED` payload with exactly the blocked-
command error text, before any subprocess is created (the `denied`
constructor is produced strictly before the spawn point), for every
environment and working directory. -/
theorem run_command_rm_denied_no_callback (env : SafetyEnv) (wd : Option Str) :
    run_command_gate env none (("rm -rf /tmp/x").toList) wd =
      .denied
        { status := ("DENIED").toList,
          error := ("Command blocked: removes files/directories. No confirmation callback available").toList,
          command := ("rm -rf /tmp/x").toList,
          return_code := -1 } := by
  have hfind :
      DANGEROUS_COMMAND_PATTERNS.find?
        (fun pr => reSearch pr.1 (pyLower (("rm -rf /tmp/x").toList))) =
        some (RE.seq (wbLit "rm") wsPlus, ("removes files/directories").toList) := by
    decide
  simp only [run_command_gate, check_dangerous_command, hfind, confirm_dangerous_operation,
    Option.getD_some, if_true]
  decide

/-- C1 counterexample: on the spec's pure-chat stream (`"hello "`,
`"world"`, no tool calls) the loop buffers the chunks and yields the single
concatenated string, not the two-element sequence the claim states. -/
theorem agent_run_pure_chat_counterexample :
    (Agent.run helloWorldProvider nullExecTool 10 convFixture (("hi").toList)).1 =
      [("hello world").toList] ∧
    (Agent.run helloWorldProvider nullExecTool 10 convFixture (("hi").toList)).1 ≠
      [("hello ").toList, ("world").toList] := by
  exact ⟨by decide, by decide⟩

/-- C1 (amended): in a pure-chat run with at least one spare iteration the
agent yields the provider's concatenated content as one chunk after the
stream completes (not chunk by chunk), and the conversation ends with the
user message followed by one assistant message holding that concatenation. -/
theorem agent_run_pure_chat_buffered (provider : Nat → List StreamChunk)
    (execTool : ToolCall → ToolResult) (maxIter : Nat) (conv : ConversationManager)
    (u t : Str) (hmax : 1 < maxIter)
    (hnotc : collectToolCalls (provider 0) = [])
    (hcont : collectContent (provider 0) = t) (ht : t ≠ []) :
    Agent.run provider execTool maxIter conv u =
      ([t],
       { conv with messages := conv.messages ++
           [{ role := ("user").toList, content := some u },
            { role := ("assistant").toList, content := some t }] }) := by
  obtain ⟨m, rfl⟩ : ∃ m, maxIter = m + 1 + 1 := ⟨maxIter - 2, by omega⟩
  have hne : t.isEmpty = false := by
    cases t with
    | nil => exact absurd rfl ht
    | cons c cs => rfl
  simp only [Agent.run, agentLoop, hnotc, hcont, hne, List.isEmpty_nil, if_true,
    Bool.not_false, if_pos, ge_iff_le]
  rw [if_neg (by omega)]
  simp [add_user_message, add_assistant_message]

/-- C1 witness: the amended behavior at the concrete pure-chat fixture. -/
theorem agent_run_pure_chat_buffered_witness :
    Agent.run helloWorldProvider nullExecTool 10 convFixture (("hi").toList) =
      ([("hello world").toList],
       { convFixture with messages := convFixture.messages ++
           [{ role := ("user").toList, content := some (("hi").toList) },
            { role := ("assistant").toList, content := some (("hello world").toList) }] }) :=
  agent_run_pure_chat_buffered helloWorldProvider nullExecTool 10 convFixture
    (("hi").toList) (("hello world").toList) (by omega) rfl rfl (by decide)

/-- Tail behavior of the agent loop when every iteration but the last
requests tool calls and the last (the final unit of fuel) streams pure text
`t`: the loop yields exactly `[t]` and its counter ends at
`iteration + fuel`, i.e. at the cap. -/
theorem agentLoop_tool_tail (provider : Nat → List StreamChunk)
    (execTool : ToolCall → ToolResult) (t : Str) (ht : t.isEmpty = false) :
    ∀ (fuel iteration : Nat) (conv : ConversationManager), 0 < fuel →
      (∀ i, iteration ≤ i → i < iteration + fuel - 1 →
        (collectToolCalls (provider i)).isEmpty = false) →
      collectToolCalls (provider (iteration + fuel - 1)) = [] →
      collectContent (provider (iteration + fuel - 1)) = t →
      (agentLoop provider execTool fuel iteration conv).1 = [t] ∧
      (agentLoop provider execTool fuel iteration conv).2.2 = iteration + fuel := by
  intro fuel
  induction fuel with
  | zero => intro it conv h; omega
  | succ f ih =>
      intro iteration conv _ htools hlast hcont
      by_cases hf : f = 0
      · subst hf
        have h0 : iteration + 1 - 1 = iteration := by omega
        rw [h0] at hlast hcont
        simp [agentLoop, hlast, hcont, ht]
      · have hcur : (collectToolCalls (provider iteration)).isEmpty = false :=
          htools iteration (Nat.le_refl _) (by omega)
        simp only [agentLoop, hcur, Bool.false_eq_true, if_false]
        have harith1 : iteration + 1 + f - 1 = iteration + (f + 1) - 1 := by omega
        have h := ih (iteration + 1)
          (((collectToolCalls (provider iteration)).foldl
              (fun c tc => add_tool_result c (execTool tc))
              (add_assistant_message conv none (some (collectToolCalls (provider iteration))))))
          (by omega)
          (fun i hi1 hi2 => htools i (by omega) (by omega))
          (by rw [harith1]; exact hlast)
          (by rw [harith1]; exact hcont)
        exact ⟨h.1, by rw [h.2]; omega⟩

/-- C9: when the stream of the final allowed iteration ends with no tool
calls — the run completes normally with a final text answer — `Agent.run`
still yields the `[Reached maximum tool iterations]` sentinel after the
answer text, because the sentinel fires whenever the loop counter reached
the cap, not only when tool calls are still pending. -/
theorem agent_run_sentinel_after_final_answer (provider : Nat → List StreamChunk)
    (execTool : ToolCall → ToolResult) (maxIter : Nat) (conv : ConversationManager)
    (u t : Str) (hmax : 0 < maxIter)
    (htools : ∀ i, i + 1 < maxIter → (collectToolCalls (provider i)).isEmpty = false)
    (hlast : collectToolCalls (provider (maxIter - 1)) = [])
    (hcont : collectContent (provider (maxIter - 1)) = t)
    (ht : t.isEmpty = false) :
    (Agent.run provider execTool maxIter conv u).1 = [t, maxIterSentinel] := by
  have harith : 0 + maxIter - 1 = maxIter - 1 := by omega
  have h := agentLoop_tool_tail provider execTool t ht maxIter 0
    (add_user_message conv u) hmax
    (fun i hi1 hi2 => htools i (by omega))
    (by rw [harith]; exact hlast)
    (by rw [harith]; exact hcont)
  simp only [Agent.run, ge_iff_le]
  rw [h.1, if_pos (by rw [h.2]; omega)]
  rfl

/-- C9 witness: with a one-iteration budget and a provider that answers in
pure text immediately, the answer is followed by the sentinel. -/
theorem agent_run_sentinel_after_final_answer_witness :
    (Agent.run helloWorldProvider nullExecTool 1 convFixture (("hi").toList)).1 =
      [("hello world").toList, maxIterSentinel] :=
  agent_run_sentinel_after_final_answer helloWorldProvider nullExecTool 1 convFixture
    (("hi").toList) (("hello world").toList) (by omega)
    (fun i hi => absurd hi (by omega)) rfl rfl rfl

/-- C7 counterexample: `apply_edit(content, old, old)` succeeds via the
`line_trimmed` fallback on `content = "foo   \nbar"`, `old = "foo\nbar"`,
yet rewrites the file to `"foo\nbar"`, dropping the trailing spaces — not a
no-op. -/
theorem apply_edit_self_line_trimmed_counterexample :
    (apply_edit (("foo   \nbar").toList) (("foo\nbar").toList) (("foo\nbar").toList)).1 = true ∧
    (apply_edit (("foo   \nbar").toList) (("foo\nbar").toList) (("foo\nbar").toList)).2.2 =
      ("line_trimmed").toList ∧
    (apply_edit (("foo   \nbar").toList) (("foo\nbar").toList) (("foo\nbar").toList)).2.1 ≠
      ("foo   \nbar").toList :=
  ⟨by decide, by decide, by decide⟩

/-- Positive `pyCountAux` forces `pyFind` to hit an occurrence. -/
theorem pyFind_isSome_of_countAux (t : Str) :
    ∀ (fuel : Nat) (s : Str), 0 < pyCountAux t fuel s → (pyFind s t).isSome := by
  intro fuel
  induction fuel with
  | zero => intro s h; simp [pyCountAux] at h
  | succ f ih =>
      intro s h
      cases s with
      | nil => simp [pyCountAux] at h
      | cons c rest =>
          by_cases hp : t.isPrefixOf (c :: rest) = true
          · simp [pyFind, hp]
          · simp only [pyCountAux, hp, Bool.false_eq_true, if_false] at h
            simp only [pyFind, hp, Bool.false_eq_true, if_false]
            simpa using ih rest h

/-- Soundness of `pyFind`: a found index is an occurrence. -/
theorem pyFind_sound (t : Str) :
    ∀ (s : Str) (i : Nat), pyFind s t = some i → t.isPrefixOf (s.drop i) = true := by
  intro s
  induction s with
  | nil =>
      intro i h
      simp only [pyFind] at h
      by_cases ht : t.isEmpty = true
      · have : t = [] := List.isEmpty_iff.mp ht
        subst this
        simp [List.isPrefixOf]
      · simp [ht] at h
  | cons c rest ih =>
      intro i h
      simp only [pyFind] at h
      by_cases hp : t.isPrefixOf (c :: rest) = true
      · rw [if_pos hp] at h
        injection h with h0
        subst h0
        simpa using hp
      · rw [if_neg hp] at h
        obtain ⟨j, hj, rfl⟩ := Option.map_eq_some'.mp h
        simpa using ih j hj

/-- Replacing an occurrence by the text it matched reassembles the string. -/
theorem take_append_drop_of_isPrefixOf_drop (s t : Str) (i : Nat)
    (h : t.isPrefixOf (s.drop i) = true) :
    s.take i ++ t ++ s.drop (i + t.length) = s := by
  obtain ⟨u, hu⟩ := List.isPrefixOf_iff_prefix.mp h
  have h1 : s.drop (i + t.length) = u := by
    rw [← List.drop_drop t.length i s, ← hu, List.drop_left]
  rw [h1, List.append_assoc, hu, List.take_append_drop]

/-- C7 (amended): replacing a string by itself is a no-op whenever the
exact strategy succeeds (`content.count(old) == 1`): `apply_edit` returns
success with the `exact` strategy and the content unchanged.  (The
fallback strategies may rewrite the matched region, as the counterexample
shows.) -/
theorem apply_edit_self_noop_exact (content old : Str)
    (h : pyCount content old = 1) :
    apply_edit content old old = (true, content, ("exact").toList) := by
  unfold apply_edit
  rw [if_pos h]
  have hrep : pyReplace1 content old old = content := by
    unfold pyReplace1
    by_cases he : old.isEmpty = true
    · have ho : old = [] := List.isEmpty_iff.mp he
      subst ho
      have hc : content = [] := by
        simp only [pyCount, List.isEmpty_nil, if_true] at h
        exact List.eq_nil_of_length_eq_zero (by omega)
      subst hc
      simp
    · rw [if_neg he]
      have hpos : 0 < pyCountAux old content.length content := by
        simp only [pyCount, he, Bool.false_eq_true, if_false] at h
        omega
      obtain ⟨i, hi⟩ := Option.isSome_iff_exists.mp
        (pyFind_isSome_of_countAux old content.length content hpos)
      rw [hi]
      exact take_append_drop_of_isPrefixOf_drop content old i (pyFind_sound old content i hi)
  rw [hrep]

/-- C7 witness: the exact-strategy no-op at a concrete input. -/
theorem apply_edit_self_noop_exact_witness :
    apply_edit (("ab").toList) (("a").toList) (("a").toList) =
      (true, ("ab").toList, ("exact").toList) :=
  apply_edit_self_noop_exact (("ab").toList) (("a").toList) (by decide)

/-- C10: `execute_async` is total — every outcome (unknown tool, handler
return, `TypeError`, arbitrary exception) is encoded as a `ToolResult`, the
result always carries the call's `id` and original un-normalized `name`,
every failure path sets `is_error`, a dict result sets `is_error` iff the
dict has an `error` key, and a non-dict result is never an error. -/
theorem execute_async_total_spec (r : ToolRegistry) (call : ToolCall) :
    (execute_async r call).tool_call_id = call.id ∧
    (execute_async r call).name = call.name ∧
    ((resolveTool r call).isSome = false → (execute_async r call).is_error = true) ∧
    (∀ t d, resolveTool r call = some t →
      t.handler (normalize_arguments call.arguments) = .ret (.dict d) →
      ((execute_async r call).is_error = true ↔ hasErrorKey d = true)) ∧
    (∀ t s, resolveTool r call = some t →
      t.handler (normalize_arguments call.arguments) = .ret (.other s) →
      (execute_async r call).is_error = false) ∧
    (∀ t e, resolveTool r call = some t →
      t.handler (normalize_arguments call.arguments) = .typeError e →
      (execute_async r call).is_error = true) ∧
    (∀ t e, resolveTool r call = some t →
      t.handler (normalize_arguments call.arguments) = .exn e →
      (execute_async r call).is_error = true) := by
  cases hres : resolveTool r call with
  | none =>
      have he : execute_async r call =
          { tool_call_id := call.id, name := call.name,
            content := jsonDumps (.obj [(("error").toList,
              .strv (unknownToolMsg r call.name (normalize_tool_name call.name)))]),
            is_error := true } := by
        unfold execute_async
        rw [hres]
      refine ⟨by rw [he], by rw [he], fun _ => by rw [he], ?_, ?_, ?_, ?_⟩ <;>
        intro t x h hd <;> cases h
  | some tool =>
      have he : execute_async r call =
          (match tool.handler (normalize_arguments call.arguments) with
           | .ret v => process_result call v
           | .typeError e =>
               { tool_call_id := call.id, name := call.name,
                 content := jsonDumps (.obj
                   [(("error").toList,
                     .strv (("Invalid arguments for '").toList ++ call.name ++ ("': ").toList ++ e)),
                    (("provided_arguments").toList, .arr (call.arguments.map (fun p => .strv p.1))),
                    (("hint").toList,
                     .strv (("Check parameter names - use snake_case (e.g. file_path, old_string)").toList))]),
                 is_error := true }
           | .exn e =>
               { tool_call_id := call.id, name := call.name,
                 content := jsonDumps (.obj
                   [(("error").toList, .strv (("Tool execution failed: ").toList ++ e))]),
                 is_error := true }) := by
        unfold execute_async
        rw [hres]
      cases hout : tool.handler (normalize_arguments call.arguments) with
      | ret v =>
          rw [hout] at he
          have hid : (execute_async r call).tool_call_id = call.id := by
            rw [he]
            cases v <;> rfl
          have hname : (execute_async r call).name = call.name := by
            rw [he]
            cases v <;> rfl
          refine ⟨hid, hname, ?_, ?_, ?_, ?_, ?_⟩
          · intro hc
            simp at hc
          · intro t d ht hd
            cases Option.some.inj ht
            rw [hout] at hd
            cases v with
            | dict d0 =>
                cases hd
                rw [he]
                simp [process_result]
            | other s0 => cases hd
          · intro t s ht hd
            cases Option.some.inj ht
            rw [hout] at hd
            cases v with
            | dict d0 => cases hd
            | other s0 =>
                rw [he]
                simp [process_result]
          · intro t e ht hd
            cases Option.some.inj ht
            rw [hout] at hd
            cases hd
          · intro t e ht hd
            cases Option.some.inj ht
            rw [hout] at hd
            cases hd
      | typeError e0 =>
          rw [hout] at he
          refine ⟨by rw [he], by rw [he], ?_, ?_, ?_, ?_, ?_⟩
          · intro hc
            simp at hc
          · intro t d ht hd
            cases Option.some.inj ht
            rw [hout] at hd
            cases hd
          · intro t s ht hd
            cases Option.some.inj ht
            rw [hout] at hd
            cases hd
          · intro t e ht hd
            rw [he]
          · intro t e ht hd
            cases Option.some.inj ht
            rw [hout] at hd
            cases hd
      | exn e0 =>
          rw [hout] at he
          refine ⟨by rw [he], by rw [he], ?_, ?_, ?_, ?_, ?_⟩
          · intro hc
            simp at hc
          · intro t d ht hd
            cases Option.some.inj ht
            rw [hout] at hd
            cases hd
          · intro t s ht hd
            cases Option.some.inj ht
            rw [hout] at hd
            cases hd
          · intro t e ht hd
            cases Option.some.inj ht
            rw [hout] at hd
            cases hd
          · intro t e ht hd
            rw [he]

/-- C10 witness: the dict-with-`error`-key case at a concrete registry. -/
theorem execute_async_total_spec_witness :
    (execute_async errDictRegistry callBoom).is_error = true ∧
    (execute_async errDictRegistry callBoom).tool_call_id = ("7").toList := by
  have h := execute_async_total_spec errDictRegistry callBoom
  refine ⟨?_, h.1⟩
  exact (h.2.2.2.1
    ⟨("boom").toList, fun _ => .ret (.dict [(("error").toList, .strv (("bad").toList))])⟩
    [(("error").toList, .strv (("bad").toList))] rfl rfl).mpr (by decide)

/-- C5 counterexample: `"echo /etc/passwd && rm /etc/passwd"` matches the
read-only allowlist (it starts with `echo `) and carries a path outside the
`/tmp` working directory, yet `check_dangerous_command` flags it: the
dangerous-pattern catalog (`rm` here) is checked first and the allowlist
does not override it, so an allowlisted command is not always allowed. -/
theorem check_dangerous_allowlisted_flagged_counterexample :
    is_safe_outside_path_command (("echo /etc/passwd && rm /etc/passwd").toList) = true ∧
    (extractPathCandidates (("echo /etc/passwd && rm /etc/passwd").toList)).any
      (fun p => !is_path_inside_directory envTmp p (("/tmp").toList)) = true ∧
    check_dangerous_command envTmp (("echo /etc/passwd && rm /etc/passwd").toList)
      (("/tmp").toList) = (true, some (("removes files/directories").toList)) :=
  ⟨by decide, by decide, by decide⟩

/-- C5 (amended): an out-of-sandbox path argument flags the command unless
it matches the read-only/network allowlist; an allowlisted command is
allowed provided it also matches no dangerous-command pattern (the catalog
runs first and is not overridden by the allowlist).  The spec's three
examples behave as stated. -/
theorem check_dangerous_outside_path (env : SafetyEnv) (cmd wd : Str) :
    ((DANGEROUS_COMMAND_PATTERNS.find? (fun pr => reSearch pr.1 (pyLower cmd)) = none →
      is_safe_outside_path_command cmd = true →
      check_dangerous_command env cmd wd = (false, none)) ∧
     (is_safe_outside_path_command cmd = false →
      (extractPathCandidates cmd).any (fun p => !is_path_inside_directory env p wd) = true →
      (check_dangerous_command env cmd wd).1 = true)) ∧
    (check_dangerous_command envTmp (("ls /etc").toList) (("/tmp").toList)).1 = true ∧
    check_dangerous_command envTmp (("echo /etc/passwd").toList) (("/tmp").toList) =
      (false, none) ∧
    check_dangerous_command envTmp
      (("git clone https://github.com/a/b /tmp/x").toList) (("/work").toList) =
      (false, none) := by
  refine ⟨⟨?_, ?_⟩, by decide, by decide, by decide⟩
  · intro h1 h2
    unfold check_dangerous_command
    rw [h1]
    unfold check_outside_directory
    rw [h2, if_pos rfl]
  · intro h1 h2
    unfold check_dangerous_command
    cases hfind : DANGEROUS_COMMAND_PATTERNS.find? (fun pr => reSearch pr.1 (pyLower cmd)) with
    | some pr => rfl
    | none =>
        unfold check_outside_directory
        rw [h1, if_neg (by simp)]
        have hsome : ((extractPathCandidates cmd).find?
            (fun p => !is_path_inside_directory env p wd)).isSome := by
          rw [List.find?_isSome]
          simpa using List.any_eq_true.mp h2
        obtain ⟨q, hq⟩ := Option.isSome_iff_exists.mp hsome
        rw [hq]

/-- C5 witness: the amended statement applied at the spec's own examples
(`echo` allowlisted and unflagged; `ls /etc` not allowlisted, carrying an
outside path, flagged). -/
theorem check_dangerous_outside_path_witness :
    check_dangerous_command envTmp (("echo /abc").toList) (("/tmp").toList) = (false, none) ∧
    (check_dangerous_command envTmp (("ls /etc").toList) (("/tmp").toList)).1 = true := by
  constructor
  · exact ((check_dangerous_outside_path envTmp (("echo /abc").toList)
      (("/tmp").toList)).1.1 (by decide) (by decide))
  · exact ((check_dangerous_outside_path envTmp (("ls /etc").toList)
      (("/tmp").toList)).1.2 (by decide) (by decide))

/-- C3 counterexample: a system prompt carrying a `{date}` token makes
`ConversationManager` initialization fail (Python raises `KeyError`, since
`.format` is only given `cwd`); the `{date}` token is never substituted. -/
theorem conversation_init_date_token_counterexample :
    (ConversationManager.init cwdDatePrompt (some (("/w").toList)) none
      (("/p").toList)).isSome = false := by
  decide

/-- One formatting step over a non-brace character. -/
theorem pyFormatCwd_cons (fuel : Nat) (c : Char) (rest cwd : Str)
    (h1 : c ≠ lbrace) (h2 : c ≠ rbrace) :
    pyFormatCwd (fuel + 1) (c :: rest) cwd = (pyFormatCwd fuel rest cwd).map (c :: ·) := by
  simp [pyFormatCwd, h1, h2]

/-- A brace-free template formats to itself (given enough fuel). -/
theorem pyFormatCwd_braceFree (cwd : Str) :
    ∀ (s : Str) (fuel : Nat), braceFree s = true → s.length < fuel →
      pyFormatCwd fuel s cwd = some s := by
  intro s
  induction s with
  | nil =>
      intro fuel _ hf
      obtain ⟨f, rfl⟩ : ∃ f, fuel = f + 1 := ⟨fuel - 1, by omega⟩
      rfl
  | cons c rest ih =>
      intro fuel hb hf
      obtain ⟨f, rfl⟩ : ∃ f, fuel = f + 1 := ⟨fuel - 1, by omega⟩
      simp only [braceFree, List.all_cons, Bool.and_eq_true, Bool.not_eq_true',
        decide_eq_false_iff_not] at hb
      rw [pyFormatCwd_cons f c rest cwd hb.1.1 hb.1.2]
      rw [ih f (by simp [braceFree, hb.2]) (by simpa using hf)]
      rfl

/-- Formatting skips over a brace-free prefix, consuming one unit of fuel
per character. -/
theorem pyFormatCwd_append (cwd : Str) :
    ∀ (pre : Str) (suffix : Str) (fuel : Nat), braceFree pre = true →
      pre.length ≤ fuel →
      pyFormatCwd fuel (pre ++ suffix) cwd =
        (pyFormatCwd (fuel - pre.length) suffix cwd).map (pre ++ ·) := by
  intro pre
  induction pre with
  | nil =>
      intro suffix fuel _ _
      simp
  | cons c pre' ih =>
      intro suffix fuel hb hf
      obtain ⟨f, rfl⟩ : ∃ f, fuel = f + 1 := ⟨fuel - 1, by simp at hf; omega⟩
      simp only [braceFree, List.all_cons, Bool.and_eq_true, Bool.not_eq_true',
        decide_eq_false_iff_not] at hb
      rw [List.cons_append, pyFormatCwd_cons f c (pre' ++ suffix) cwd hb.1.1 hb.1.2]
      rw [ih suffix f (by simp [braceFree, hb.2]) (by simp at hf; omega)]
      have harith : f - pre'.length = f + 1 - (c :: pre').length := by
        simp only [List.length_cons]
        omega
      rw [← harith, Option.map_map]
      rfl

/-- Evaluating the formatter at a leading `{cwd}` field. -/
theorem pyFormatCwd_tokenCwd (cwd post : Str) (f : Nat) :
    pyFormatCwd (f + 1) (tokenCwd ++ post) cwd = (pyFormatCwd f post cwd).map (cwd ++ ·) :=
  rfl

/-- Evaluating the formatter at a leading `{date}` field: `KeyError`. -/
theorem pyFormatCwd_tokenDate (cwd post : Str) (f : Nat) :
    pyFormatCwd (f + 1) (tokenDate ++ post) cwd = none :=
  rfl

/-- C3 (amended): on initialization only the `{cwd}` token of the system
prompt is substituted (with the working directory), and the substituted
prompt becomes the single system message; a `{date}` token is not
substituted — any prompt containing `{date}` makes initialization fail
(`KeyError`), whatever the project context. -/
theorem conversation_init_substitutes_cwd_only (pre post wd pcwd : Str) (pc : Option Str)
    (hpre : braceFree pre = true) (hpost : braceFree post = true) (hwd : wd ≠ []) :
    ConversationManager.init (pre ++ tokenCwd ++ post) (some wd) none pcwd =
      some { system_prompt := pre ++ wd ++ post, working_dir := wd,
             project_context := none,
             messages := [{ role := ("system").toList,
                            content := some (pre ++ wd ++ post) }] } ∧
    ConversationManager.init (pre ++ tokenDate ++ post) (some wd) pc pcwd = none := by
  have hwdE : wd.isEmpty = false := by
    cases wd with
    | nil => exact absurd rfl hwd
    | cons a b => rfl
  have hlen : ∀ tok : Str, (pre ++ (tok ++ post)).length + 1 - pre.length =
      (tok ++ post).length + 1 := by
    intro tok
    simp [List.length_append]
    omega
  constructor
  · have hfmt : pyFormat (pre ++ tokenCwd ++ post) wd = some (pre ++ wd ++ post) := by
      unfold pyFormat
      rw [List.append_assoc,
        pyFormatCwd_append wd pre (tokenCwd ++ post) _ hpre
          (by simp [List.length_append]; omega),
        hlen tokenCwd]
      have h5 : (tokenCwd ++ post).length + 1 = (post.length + 5) + 1 := by
        simp [tokenCwd, List.length_append]
      rw [h5, pyFormatCwd_tokenCwd wd post (post.length + 5),
        pyFormatCwd_braceFree wd post (post.length + 5) hpost (by omega)]
      simp
    unfold ConversationManager.init
    simp only [hwdE, Bool.false_eq_true, if_false, hfmt, List.append_nil]
  · have hfmt : pyFormat (pre ++ tokenDate ++ post) wd = none := by
      unfold pyFormat
      rw [List.append_assoc,
        pyFormatCwd_append wd pre (tokenDate ++ post) _ hpre
          (by simp [List.length_append]; omega),
        hlen tokenDate]
      have h6 : (tokenDate ++ post).length + 1 = (post.length + 6) + 1 := by
        simp [tokenDate, List.length_append]
      rw [h6, pyFormatCwd_tokenDate wd post (post.length + 6)]
      rfl
    unfold ConversationManager.init
    simp only [hwdE, Bool.false_eq_true, if_false, hfmt]

/-- C3 witness: the substitution at a concrete prompt and directory. -/
theorem conversation_init_substitutes_cwd_only_witness :
    ConversationManager.init ((("Hi ").toList ++ tokenCwd ++ (" end").toList))
      (some (("/w").toList)) none (("/p").toList) =
      some { system_prompt := (("Hi ").toList ++ ("/w").toList ++ (" end").toList),
             working_dir := ("/w").toList, project_context := none,
             messages := [{ role := ("system").toList,
                            content := some ((("Hi ").toList ++ ("/w").toList ++ (" end").toList)) }] } ∧
    ConversationManager.init ((("Hi ").toList ++ tokenDate ++ (" end").toList))
      (some (("/w").toList)) none (("/p").toList) = none :=
  conversation_init_substitutes_cwd_only (("Hi ").toList) ((" end").toList)
    (("/w").toList) (("/p").toList) none (by decide) (by decide) (by decide)

/-- C8 counterexample: a manager built from the prompt `a{{b}}` constructs
fine (formatted prompt `a{b}`), but `from_dict(to_dict(c))` re-formats the
stored, already-formatted prompt and fails (`KeyError: 'b'`), so the
round-trip does not succeed for every manager. -/
theorem conversation_roundtrip_counterexample :
    (ConversationManager.init doubledBracePrompt (some (("/w").toList)) none
      (("/p").toList)).isSome = true ∧
    ((ConversationManager.init doubledBracePrompt (some (("/w").toList)) none
        (("/p").toList)).bind
      (fun c => ConversationManager.from_dict c.to_dict (("/p").toList))).isSome = false :=
  ⟨by decide, by decide⟩

/-- Per-message dict round trip, given no empty tool-call list. -/
theorem msgFromDict_msgToDict (m : Message) (h : msgOk m = true) :
    msgFromDict (msgToDict m) = m := by
  cases m with
  | mk role content tool_calls tool_call_id name =>
      cases tool_calls with
      | none => rfl
      | some tcs =>
          cases tcs with
          | nil => simp [msgOk] at h
          | cons a b => rfl

/-- The mutation operations never touch the stored system prompt. -/
theorem applyConvOps_system_prompt (ops : List ConvOp) :
    ∀ c : ConversationManager, (applyConvOps c ops).system_prompt = c.system_prompt := by
  induction ops with
  | nil => intro c; rfl
  | cons op rest ih =>
      intro c
      have h1 : applyConvOps c (op :: rest) = applyConvOps (applyConvOp c op) rest := rfl
      rw [h1, ih (applyConvOp c op)]
      cases op <;> rfl

/-- The no-empty-tool-calls invariant is preserved by operation replay. -/
theorem applyConvOps_msgOk (ops : List ConvOp) :
    ∀ c : ConversationManager, (∀ m ∈ c.messages, msgOk m = true) →
      opsNoEmptyTc ops = true →
      ∀ m ∈ (applyConvOps c ops).messages, msgOk m = true := by
  induction ops with
  | nil => intro c hc _; exact hc
  | cons op rest ih =>
      intro c hc hops
      simp only [opsNoEmptyTc, List.all_cons, Bool.and_eq_true] at hops
      have h1 : applyConvOps c (op :: rest) = applyConvOps (applyConvOp c op) rest := rfl
      rw [h1]
      refine ih (applyConvOp c op) ?_ (by simp [opsNoEmptyTc, hops.2])
      intro m hm
      cases op with
      | user s =>
          rcases List.mem_append.mp hm with h | h
          · exact hc m h
          · rw [List.mem_singleton.mp h]; rfl
      | assistant content tcs =>
          rcases List.mem_append.mp hm with h | h
          · exact hc m h
          · rw [List.mem_singleton.mp h]
            cases tcs with
            | none => rfl
            | some l =>
                simp only [msgOk]
                simpa using hops.1
      | tool r =>
          rcases List.mem_append.mp hm with h | h
          · exact hc m h
          · rw [List.mem_singleton.mp h]; rfl

/-- Every message of a freshly initialized manager is round-trippable (the
log is a single system message with no tool calls). -/
theorem init_messages_shape (sp : Str) (wd0 pc : Option Str) (pcwd : Str)
    (c : ConversationManager)
    (hinit : ConversationManager.init sp wd0 pc pcwd = some c) :
    ∀ m ∈ c.messages, msgOk m = true := by
  unfold ConversationManager.init at hinit
  simp only [] at hinit
  revert hinit
  cases hpf : pyFormat sp (match wd0 with
      | some w => if w.isEmpty = true then pcwd else w
      | none => pcwd) with
  | none =>
      intro hinit
      cases hinit
  | some sp2 =>
      intro hinit
      cases Option.some.inj hinit
      intro m hm
      rw [List.mem_singleton.mp hm]
      rfl

/-- C8 (amended): the `to_dict`/`from_dict` round trip preserves the exact
message sequence for every manager whose formatted system prompt is
brace-free and whose operations never pass an empty tool-call list.  (In
general `from_dict` re-runs `.format` on the stored, already-formatted
prompt and can fail, and an empty `tool_calls` list deserializes to
`None`, as the counterexample shows.) -/
theorem conversation_roundtrip_messages (sp : Str) (wd0 pc : Option Str)
    (pcwd pcwd2 : Str) (ops : List ConvOp) (c : ConversationManager)
    (hinit : ConversationManager.init sp wd0 pc pcwd = some c)
    (hbf : braceFree c.system_prompt = true)
    (hops : opsNoEmptyTc ops = true) :
    ∃ c', ConversationManager.from_dict
        (ConversationManager.to_dict (applyConvOps c ops)) pcwd2 = some c' ∧
      c'.messages = (applyConvOps c ops).messages := by
  have hmsgs := init_messages_shape sp wd0 pc pcwd c hinit
  have hall := applyConvOps_msgOk ops c hmsgs hops
  have hsp := applyConvOps_system_prompt ops c
  have hbfC : braceFree (applyConvOps c ops).system_prompt = true := by
    rw [hsp]; exact hbf
  have hfmt : ∀ cwd : Str,
      pyFormat (applyConvOps c ops).system_prompt cwd =
        some (applyConvOps c ops).system_prompt := by
    intro cwd
    exact pyFormatCwd_braceFree cwd _ _ hbfC (by omega)
  unfold ConversationManager.from_dict ConversationManager.to_dict
  unfold ConversationManager.init
  simp only [hfmt]
  refine ⟨_, rfl, ?_⟩
  show List.map msgFromDict (List.map msgToDict (applyConvOps c ops).messages) =
    (applyConvOps c ops).messages
  have hcong : ∀ m ∈ (applyConvOps c ops).messages,
      (msgFromDict ∘ msgToDict) m = id m :=
    fun m hm => msgFromDict_msgToDict m (hall m hm)
  rw [List.map_map, List.map_congr_left hcong, List.map_id]

/-- C8 witness: the preserved round trip at a concrete manager and a
concrete operation sequence including an assistant turn with tool calls and
a tool result. -/
theorem conversation_roundtrip_messages_witness :
    ∃ c', ConversationManager.from_dict
        (ConversationManager.to_dict (applyConvOps convFixture roundtripOps))
        (("/q").toList) = some c' ∧
      c'.messages = (applyConvOps convFixture roundtripOps).messages :=
  conversation_roundtrip_messages (("sys").toList) (some (("/w").toList)) none
    (("/p").toList) (("/q").toList) roundtripOps convFixture rfl (by decide) (by decide)

/-- Last-newline search distributes over append. -/
theorem lastNlPos_append (xs ys : Str) :
    lastNlPos (xs ++ ys) =
      match lastNlPos ys with
      | some j => some (xs.length + j)
      | none => lastNlPos xs := by
  induction xs with
  | nil =>
      cases h : lastNlPos ys <;> simp [h, lastNlPos]
  | cons c rest ih =>
      rw [List.cons_append]
      show (match lastNlPos (rest ++ ys) with
            | some j => some (j + 1)
            | none => if c = '\n' then some 0 else none) = _
      rw [ih]
      cases h : lastNlPos ys with
      | some j => simp [List.length_cons]; omega
      | none =>
          cases h2 : lastNlPos rest <;> simp [lastNlPos, h2]

/-- A newline-free string has no last newline. -/
theorem lastNlPos_eq_none (l : Str) (h : '\n' ∉ l) : lastNlPos l = none := by
  induction l with
  | nil => rfl
  | cons c rest ih =>
      simp only [List.mem_cons, not_or] at h
      show (match lastNlPos rest with
            | some j => some (j + 1)
            | none => if c = '\n' then some 0 else none) = none
      rw [ih h.2, if_neg (fun hc => h.1 hc.symm)]

/-- First-newline search over a newline-free prefix followed by a newline. -/
theorem firstNlPos_append_newline (w : Str) (h : '\n' ∉ w) (B : Str) :
    firstNlPos (w ++ '\n' :: B) = some w.length := by
  induction w with
  | nil => rfl
  | cons c rest ih =>
      simp only [List.mem_cons, not_or] at h
      rw [List.cons_append]
      show (if c = '\n' then some 0 else (firstNlPos (rest ++ '\n' :: B)).map (· + 1)) = _
      rw [if_neg (fun hc => h.1 hc.symm), ih h.2]
      rfl

/-- Dropping leading newlines from a newline-free string is the identity. -/
theorem dropWhileNl_eq_self (l : Str) (h : '\n' ∉ l) : l.dropWhile (· = '\n') = l := by
  cases l with
  | nil => rfl
  | cons a l2 =>
      simp only [List.mem_cons, not_or] at h
      exact List.dropWhile_cons_of_neg (by simpa using fun hc => h.1 hc.symm)

/-- Stripping trailing newlines from a newline-free string extended by one
newline recovers the string. -/
theorem rstripNl_append_newline (w : Str) (h : '\n' ∉ w) :
    rstripNl (w ++ ['\n']) = w := by
  unfold rstripNl
  rw [List.reverse_append]
  have hrev : (['\n'] : Str).reverse = ['\n'] := rfl
  rw [hrev, List.singleton_append,
    List.dropWhile_cons_of_pos (by simp),
    dropWhileNl_eq_self w.reverse (by simpa using h), List.reverse_reverse]

/-- C6: when the exact strategy matches `old` (unique occurrence, found at
the decomposition position), the replacement is empty, and the match
occupies the entire content of its line span — only whitespace `w1` before
it on its starting line, only whitespace `w2` after it up to the newline
ending its last line — `edit_file` deletes the whole line(s) including the
trailing newline: the file becomes `A ++ B`, with no blank line left at
the match site. -/
theorem edit_file_full_line_deletion
    (A w1 old w2 B : Str)
    (hA : A = [] ∨ A.getLast? = some '\n')
    (hw1a : ∀ c ∈ w1, isWs c = true) (hw1n : '\n' ∉ w1)
    (hw2a : ∀ c ∈ w2, isWs c = true) (hw2n : '\n' ∉ w2)
    (hcount : pyCount (A ++ w1 ++ old ++ w2 ++ '\n' :: B) old = 1)
    (hfind : pyFind (A ++ w1 ++ old ++ w2 ++ '\n' :: B) old =
      some (A.length + w1.length)) :
    edit_file_content (A ++ w1 ++ old ++ w2 ++ '\n' :: B) old [] =
      some (A ++ B, ("exact").toList) := by
  set content := A ++ w1 ++ old ++ w2 ++ '\n' :: B with hcontent
  set pos := A.length + w1.length with hpos
  have happ : apply_edit content old [] =
      (true, pyReplace1 content old [], ("exact").toList) := by
    unfold apply_edit
    simp only [hcount, if_true]
  have hsplit : content = (A ++ w1) ++ (old ++ (w2 ++ '\n' :: B)) := by
    rw [hcontent]
    simp [List.append_assoc]
  have htake_pos : content.take pos = A ++ w1 := by
    rw [hsplit]
    apply List.take_left'
    simp [hpos, List.length_append]
  have hline_start : ((pyRFindNlBefore content pos).map (· + 1)).getD 0 = A.length := by
    unfold pyRFindNlBefore
    rw [htake_pos, lastNlPos_append, lastNlPos_eq_none w1 hw1n]
    rcases hA with h | h
    · subst h
      rfl
    · obtain ⟨A0, rfl⟩ := List.getLast?_eq_some_iff.mp h
      rw [lastNlPos_append]
      have h0 : lastNlPos ['\n'] = some 0 := rfl
      rw [h0]
      simp [List.length_append]
  have hbefore : pySlice content A.length pos = w1 := by
    unfold pySlice
    rw [htake_pos]
    apply List.drop_left'
    rfl
  have cond1 : (w1.isEmpty || pyIsSpace w1) = true := by
    cases hw : w1 with
    | nil => rfl
    | cons c r =>
        subst hw
        simp only [pyIsSpace, List.isEmpty_cons, Bool.false_or, Bool.not_false,
          Bool.true_and]
        exact List.all_eq_true.mpr hw1a
  have hcontent2 : content = (A ++ w1 ++ old) ++ (w2 ++ '\n' :: B) := by
    rw [hcontent]
    simp [List.append_assoc]
  have hlen2 : (A ++ w1 ++ old).length = pos + old.length := by
    simp only [List.length_append, hpos]
    try omega
  have hfindnl : pyFindNlFrom content (pos + old.length) =
      some (pos + old.length + w2.length) := by
    unfold pyFindNlFrom
    rw [hcontent2, List.drop_left' hlen2, firstNlPos_append_newline w2 hw2n B]
    simp [Nat.add_assoc]
  have hafter : rstripNl (pySlice content (pos + old.length)
      (pos + old.length + w2.length + 1)) = w2 := by
    unfold pySlice
    rw [hcontent2]
    rw [show pos + old.length + w2.length + 1 =
      (A ++ w1 ++ old).length + (w2.length + 1) by rw [hlen2]; omega]
    rw [List.take_append]
    rw [show w2 ++ '\n' :: B = w2 ++ ('\n' :: B) from rfl]
    rw [List.take_append]
    have hb : ('\n' :: B).take 1 = ['\n'] := by
      simp
    rw [hb, List.drop_left' hlen2]
    exact rstripNl_append_newline w2 hw2n
  have cond2 : (w2.isEmpty || pyIsSpace w2) = true := by
    cases hw : w2 with
    | nil => rfl
    | cons c r =>
        subst hw
        simp only [pyIsSpace, List.isEmpty_cons, Bool.false_or, Bool.not_false,
          Bool.true_and]
        exact List.all_eq_true.mpr hw2a
  have hsplit0 : content = A ++ (w1 ++ (old ++ (w2 ++ '\n' :: B))) := by
    rw [hcontent]
    simp [List.append_assoc]
  have htakeA : content.take A.length = A := by
    rw [hsplit0]
    apply List.take_left'
    rfl
  have hdropEnd : content.drop (pos + old.length + w2.length + 1) = B := by
    have h2 : content = (A ++ w1 ++ old ++ w2 ++ ['\n']) ++ B := by
      rw [hcontent]
      simp [List.append_assoc]
    rw [h2]
    apply List.drop_left'
    simp only [List.length_append, List.length_cons, List.length_nil, hpos]
    try omega
  unfold edit_file_content editDeletionSugar
  rw [happ]
  simp only [List.isEmpty_nil, decide_True, Bool.and_self, eq_self_iff_true, if_true,
    hfind, hline_start, hbefore, cond1, hfindnl, hafter, cond2, htakeA, hdropEnd]

/-- C6 witness: deleting `foo` from `"x\n  foo \nrest"` removes the entire
line, trailing newline included. -/
theorem edit_file_full_line_deletion_witness :
    edit_file_content (("x\n").toList ++ ("  ").toList ++ ("foo").toList ++
        (" ").toList ++ '\n' :: ("rest").toList) (("foo").toList) [] =
      some ((("x\n").toList ++ ("rest").toList), ("exact").toList) :=
  edit_file_full_line_deletion (("x\n").toList) (("  ").toList) (("foo").toList)
    ((" ").toList) (("rest").toList)
    (Or.inr (by decide)) (by decide) (by decide) (by decide) (by decide)
    (by decide) (by decide)
